import Mathlib

/-!
# Verification of the Living Voices dataset processing pipeline

Shallow embedding of the repository's extraction / mapping / segmentation /
validation code, together with theorems settling the frozen claims about it.

All text is modelled as `List Char` (`Str` below): the scripts manipulate
Python `str` values, whose relevant operations (split, join, formatting,
regex-free character filtering) are embedded as functions on character lists.
Embedded functions are named after the Python functions they translate.
-/

set_option maxHeartbeats 1000000

/-- Text values: Python strings modelled as lists of characters. -/
abbrev Str := List Char

/-- Character list of a Lean string literal. -/
def lit (s : String) : Str := s.data

/-- Whitespace test used by Python `str.split()` (ASCII whitespace model). -/
def isSpc (c : Char) : Bool := c.isWhitespace

/-- Accumulator worker for `pySplit`.  The accumulator holds the current word
reversed; a maximal whitespace run ends the word, empty fragments are dropped,
which is exactly the behaviour of Python's no-argument `str.split()`. -/
def pySplitAcc : Str → Str → List Str
  | [], acc => if acc = [] then [] else [acc.reverse]
  | c :: cs, acc =>
    if isSpc c then
      if acc = [] then pySplitAcc cs [] else acc.reverse :: pySplitAcc cs []
    else
      pySplitAcc cs (c :: acc)

/-- Embedding of Python `content.split()`: split on whitespace runs, dropping
empty fragments. -/
def pySplit (l : Str) : List Str := pySplitAcc l []

/-- Embedding of Python `' '.join(words)`. -/
def joinWords : List Str → Str
  | [] => []
  | [w] => w
  | w :: ws => w ++ ' ' :: joinWords ws

/-- Embedding of Python `'\n'.join(parts)`. -/
def joinLines : List Str → Str
  | [] => []
  | [w] => w
  | w :: ws => w ++ '\n' :: joinLines ws

/-- Little-endian decimal digits computed with structural fuel, so that the
kernel can evaluate it (`Nat.digits` is well-founded and does not reduce). -/
def decDigitsAux : ℕ → ℕ → List ℕ
  | 0, _ => []
  | _ + 1, 0 => []
  | fuel + 1, n + 1 => ((n + 1) % 10) :: decDigitsAux fuel ((n + 1) / 10)

/-- Little-endian decimal digits of `n` (empty for 0). -/
def decDigits (n : ℕ) : List ℕ := decDigitsAux n n

/-- The character for a decimal digit. -/
def digitChar : ℕ → Char
  | 0 => '0' | 1 => '1' | 2 => '2' | 3 => '3' | 4 => '4'
  | 5 => '5' | 6 => '6' | 7 => '7' | 8 => '8' | _ => '9'

/-- Numeric value of a digit character. -/
def charVal (c : Char) : ℕ := c.toNat - 48

/-- Embedding of Python `str(n)` / `f"{n}"` for a natural number. -/
def natStr (n : ℕ) : Str :=
  match decDigits n with
  | [] => lit "0"
  | ds => ds.reverse.map digitChar

/-- Embedding of Python `f"{n:04d}"`: decimal digits left-padded with zeros to
a minimum width of four. -/
def fmt04 (n : ℕ) : Str :=
  let ds := decDigits n
  List.replicate (4 - ds.length) '0' ++ ds.reverse.map digitChar

/-- Decodes a decimal digit string back to its value (left inverse of
`fmt04`, used to prove id injectivity). -/
def fmtVal (s : Str) : ℕ := Nat.ofDigits 10 (s.map charVal).reverse

/-!
## Fixed-window segmenter
(`QueenElizabethDataProcessor._chunk_document`, `_create_chunks` and
`_generate_doc_id` in `tools/data_processing/queen_elizabeth_ii/process_data.py`)
-/

/-- The fields of a structured Queen Elizabeth II document that
`_chunk_document` reads.  `metadata` and `source` are dictionary payloads the
chunker copies verbatim into every chunk; they are modelled as opaque values. -/
structure QDoc where
  id : Str
  title : Str
  full_text : Str
  metadata : Str
  source : Str
deriving DecidableEq

/-- One chunk produced by `_chunk_document`. -/
structure QChunk where
  chunk_id : Str
  document_id : Str
  document_title : Str
  chunk_index : ℕ
  content : Str
  word_count : ℕ
  metadata : Str
  source : Str
deriving DecidableEq

/-- Placeholder chunk used only with `List.getD`. -/
def defaultQChunk : QChunk :=
  { chunk_id := [], document_id := [], document_title := [], chunk_index := 0,
    content := [], word_count := 0, metadata := [], source := [] }

/-- Builds the chunk dictionary for the window `slice` at position `idx`,
exactly as the loop body of `_chunk_document` does: the content is the
space-join of the window's words and `word_count` re-splits that content. -/
def mkQChunk (doc : QDoc) (idx : ℕ) (slice : List Str) : QChunk :=
  { chunk_id := doc.id ++ lit "_chunk_" ++ natStr idx,
    document_id := doc.id,
    document_title := doc.title,
    chunk_index := idx,
    content := joinWords slice,
    word_count := (pySplit (joinWords slice)).length,
    metadata := doc.metadata,
    source := doc.source }

/-- The `while start < len(words)` loop of `_chunk_document`: emit the window
`words[start : start + W]`, then advance `start` by the stride `W - ov`.
The loop in the source has no guard for `ov ≥ W`; it only terminates because
the start index eventually passes the end of the word list, so this total
embedding carries the hypothesis `ov < W` (the source always calls it with
`W = 500`, `ov = 100`).  The behaviour of the source loop for `ov ≥ W` is
captured separately by `winStart` / `WindowingTerminates`. -/
def chunkFrom (doc : QDoc) (words : List Str) (W ov : ℕ) (h : ov < W)
    (start idx : ℕ) : List QChunk :=
  if hs : start < words.length then
    mkQChunk doc idx ((words.drop start).take W) ::
      chunkFrom doc words W ov h (start + (W - ov)) (idx + 1)
  else []
termination_by words.length - start
decreasing_by omega

/-- Embedding of `_chunk_document(document, chunk_size, overlap)`. -/
def chunkDocument (doc : QDoc) (W ov : ℕ) (h : ov < W) : List QChunk :=
  chunkFrom doc (pySplit doc.full_text) W ov h 0 0

/-- The value of the loop variable `start` of `_chunk_document` when the loop
condition is tested for the `k`-th time: `start` begins at 0 and each
iteration executes `start += (chunk_size - overlap)` (Python integers, so the
stride may be zero or negative). -/
def winStart (W ov : ℕ) (k : ℕ) : ℤ := k * ((W : ℤ) - (ov : ℤ))

/-- The windowing loop of `_chunk_document` terminates on a document of `n`
words if and only if some tested value of `start` reaches `n` (both the
`while` condition and the trailing `if start >= len(words): break` stop the
loop exactly when `start ≥ n`). -/
def WindowingTerminates (n W ov : ℕ) : Prop := ∃ k : ℕ, (n : ℤ) ≤ winStart W ov k

/-- The document fields `_generate_doc_id` and `_structure_document` read:
the id is derived from the title alone. -/
structure RawDocQE where
  title : Str
  content : Str
deriving DecidableEq

/-- Characters kept by the regex `[^\w\s-]` deletion in `_generate_doc_id`
(ASCII model of `\w` and `\s`). -/
def keepChar (c : Char) : Bool := c.isAlphanum || c = '_' || c.isWhitespace || c = '-'

/-- Membership in the character class `[\s_]`. -/
def spaceOrUnderscore (c : Char) : Bool := c.isWhitespace || c = '_'

/-- Worker for `collapseSpaces`: the flag records whether the previous kept
character was part of a `[\s_]` run. -/
def collapseAux : Bool → Str → Str
  | _, [] => []
  | inRun, c :: cs =>
    if spaceOrUnderscore c then
      if inRun then collapseAux true cs else '_' :: collapseAux true cs
    else c :: collapseAux false cs

/-- Embedding of `re.sub(r'[\s_]+', '_', s)`: each maximal `[\s_]` run becomes
a single underscore. -/
def collapseSpaces (s : Str) : Str := collapseAux false s

/-- Embedding of the title slug computed by `_generate_doc_id`. -/
def titleSlug (title : Str) : Str :=
  collapseSpaces ((title.map Char.toLower).filter keepChar)

/-- Embedding of `_generate_doc_id`: the id depends only on the document's
title. -/
def generateDocId (d : RawDocQE) : Str := lit "qe2_" ++ titleSlug d.title

/-!
## Du Fu record-to-document mapper and structure-aware segmenter
(`DuFuRAGProcessor._create_structured_documents` and
`_generate_training_chunks` in `tools/data_collection/du_fu/process_for_rag.py`)
-/

/-- One allusion entry of a raw poem record (`allusions` list items). -/
structure Allusion where
  allusion_id : Str
  sentence_index : Str
  text : Str
deriving DecidableEq

/-- One text annotation of a raw poem record (`text_annotations` items,
produced by `_extract_annotations_by_type`). -/
structure Annotation where
  index : Str
  content : Str
deriving DecidableEq

/-- A typed annotation as produced by `_extract_annotations` (title and line
annotations carry their type tag). -/
structure Annot3 where
  typeTag : Str
  index : Str
  content : Str
deriving DecidableEq

/-- A raw poem record as read by `process_for_rag.py`: the JSON dictionary
written by `extract_from_xml.py`. -/
structure Poem where
  poem_id : Str
  author : Str
  author_id : Str
  dynasty : Str
  creation_date : Str
  group_number : Str
  place_code : Str
  poem_type : Str
  poem_type_detail : Str
  rhyme_category : Str
  rhyme_number : Str
  final_rhyme : Str
  has_title : Bool
  title : Str
  title_annotations : List Annot3
  lines : List Str
  line_tones : List Str
  line_rhymes : List Str
  line_annotations : List (List Annot3)
  allusions : List Allusion
  source_books : List Str
  text_annotations : List Annotation
  word_dict_annotations : List Annotation
  char_dict_annotations : List Annotation
  allusion_key_annotations : List Annotation
  image_annotations : List Annotation
  sentence_indices : List (List ℕ)
deriving DecidableEq

/-- The `source` block of a structured Du Fu document. -/
structure DocSource where
  database : Str
  author : Str
  author_id : Str
  poem_id : Str
  collected : Str
  processed : Str
deriving DecidableEq

/-- The `content` block of a structured Du Fu document. -/
structure DocContent where
  full_text : Str
  poem_lines : List Str
  line_count : ℕ
  char_count : ℕ
deriving DecidableEq

/-- The `metadata` block of a structured Du Fu document. -/
structure DocMetadata where
  persona : Str
  time_period : Str
  place : Str
  poem_type : Str
  poem_type_detail : Str
  rhyme_category : Str
  has_allusions : Bool
  allusion_count : ℕ
  has_annotations : Bool
  annotation_count : ℕ
  language : Str
  formality : Str
  content_category : Str
deriving DecidableEq

/-- A structured Du Fu document (`doc` in `_create_structured_documents`). -/
structure StructuredDocument where
  id : Str
  dtype : Str
  title : Str
  source : DocSource
  content : DocContent
  metadata : DocMetadata
deriving DecidableEq

/-- Python `x or "Unknown"` on a string field. -/
def orUnknown (s : Str) : Str := if s = [] then lit "Unknown" else s

/-- The `full_text_parts` assembly of `_create_structured_documents`: labeled
blocks, each omitted when empty, annotations limited to the first five with a
`... and N more` note when truncated. -/
def fullTextParts (p : Poem) : List Str :=
  (if p.title = [] then [] else [lit "Title: " ++ p.title, []]) ++
  (if p.lines = [] then [] else (lit "Poem:" :: p.lines) ++ [[]]) ++
  (let creation_info :=
      (if p.creation_date = [] then [] else [lit "Date: " ++ p.creation_date]) ++
      (if p.place_code = [] then [] else [lit "Place: " ++ p.place_code]);
    if creation_info = [] then []
    else (lit "Creation Information:" :: creation_info) ++ [[]]) ++
  (let lit_info :=
      (if p.poem_type = [] then [] else [lit "Type: " ++ p.poem_type]) ++
      (if p.rhyme_category = [] then [] else [lit "Rhyme: " ++ p.rhyme_category]);
    if lit_info = [] then []
    else (lit "Literary Characteristics:" :: lit_info) ++ [[]]) ++
  (if p.allusions = [] then []
   else (lit "Allusions:" ::
      p.allusions.filterMap
        (fun a => if a.text = [] then none else some (lit "  - " ++ a.text))) ++ [[]]) ++
  (if p.text_annotations = [] then []
   else (lit "Annotations:" ::
      ((p.text_annotations.take 5).filterMap
        (fun a => if a.content = [] then none else some (lit "  - " ++ a.content)) ++
       (if 5 < p.text_annotations.length then
          [lit "  ... and " ++ natStr (p.text_annotations.length - 5) ++ lit " more"]
        else []))) ++ [[]])

/-- Embedding of one iteration of `_create_structured_documents`: maps one raw
poem record to its structured document.  `extraction_date` is the metadata of
the extraction run and `now` is the value of `datetime.now().isoformat()` at
processing time; `now` flows only into `source.processed`. -/
def createDoc (extraction_date now : Str) (p : Poem) : StructuredDocument :=
  { id := lit "dufu_" ++ p.poem_id,
    dtype := lit "poem",
    title := if p.title = [] then lit "Untitled" else p.title,
    source :=
      { database := lit "CNKGraph.Writings.xml",
        author := lit "杜甫",
        author_id := p.author_id,
        poem_id := p.poem_id,
        collected := extraction_date,
        processed := now },
    content :=
      { full_text := joinLines (fullTextParts p),
        poem_lines := p.lines,
        line_count := p.lines.length,
        char_count := (p.lines.map List.length).sum },
    metadata :=
      { persona := lit "Du Fu (杜甫)",
        time_period := orUnknown p.creation_date,
        place := orUnknown p.place_code,
        poem_type := orUnknown p.poem_type,
        poem_type_detail := orUnknown p.poem_type_detail,
        rhyme_category := orUnknown p.rhyme_category,
        has_allusions := decide (0 < p.allusions.length),
        allusion_count := p.allusions.length,
        has_annotations := decide (0 < p.text_annotations.length),
        annotation_count := p.text_annotations.length,
        language := lit "Classical Chinese",
        formality := lit "Formal",
        content_category := lit "poetry" } }

/-- Erases the processing timestamp of a structured document (the only field
`datetime.now()` flows into). -/
def eraseTimestamp (d : StructuredDocument) : StructuredDocument :=
  { d with source := { d.source with processed := [] } }

/-- Metadata payload of a training chunk; the three chunk kinds carry
different keys, matching the three dictionaries in
`_generate_training_chunks`. -/
inductive TChunkMeta where
  | contentMeta (persona time_period poem_title poem_type language : Str)
      (has_allusions has_annotations : Bool)
  | allusionsMeta (persona time_period poem_title poem_type language : Str)
      (allusion_count : ℕ)
  | annotationsMeta (persona time_period poem_title poem_type language : Str)
      (annotation_count : ℕ)
deriving DecidableEq

/-- One training chunk produced by `_generate_training_chunks`. -/
structure TChunk where
  chunk_id : Str
  source_document_id : Str
  chunk_type : Str
  content : Str
  char_count : ℕ
  meta : TChunkMeta
deriving DecidableEq

/-- Placeholder chunk used only with `List.getD`. -/
def defaultTChunk : TChunk :=
  { chunk_id := [], source_document_id := [], chunk_type := [], content := [],
    char_count := 0, meta := .contentMeta [] [] [] [] [] false false }

/-- Chunk ids assigned by `_generate_training_chunks`:
`f"dufu_chunk_{chunk_id:04d}"`. -/
def chunkIdStr (k : ℕ) : Str := lit "dufu_chunk_" ++ fmt04 k

/-- The `chunk_parts` assembly for the primary poem-content chunk. -/
def chunk1Parts (d : StructuredDocument) : List Str :=
  (if d.title = [] then [] else [lit "Poem Title: " ++ d.title]) ++
  (if d.content.poem_lines = [] then []
   else lit "\nPoem Text:" :: d.content.poem_lines) ++
  (if d.metadata.time_period = lit "Unknown" then []
   else [lit "\nCreation Date: " ++ d.metadata.time_period]) ++
  (if d.metadata.place = lit "Unknown" then []
   else [lit "Location: " ++ d.metadata.place]) ++
  (if d.metadata.poem_type = lit "Unknown" then []
   else [lit "Poem Type: " ++ d.metadata.poem_type])

/-- Content of the primary poem-content chunk (`chunk1_text`). -/
def chunk1Text (d : StructuredDocument) : Str := joinLines (chunk1Parts d)

/-- The `allusion_parts` assembly for the allusion-context chunk. -/
def chunk2Parts (d : StructuredDocument) (p : Poem) : List Str :=
  [lit "Poem: " ++ d.title, [], lit "Literary Allusions and References:"] ++
  p.allusions.filterMap
    (fun a => if a.text = [] then none else some (lit "  " ++ a.text))

/-- Content of the allusion-context chunk (`chunk2_text`). -/
def chunk2Text (d : StructuredDocument) (p : Poem) : Str := joinLines (chunk2Parts d p)

/-- The `ann_parts` assembly for the annotation-context chunk: the first ten
annotation texts, with a `... and N more annotations` note when more exist. -/
def chunk3Parts (d : StructuredDocument) (p : Poem) : List Str :=
  [lit "Poem: " ++ d.title, [], lit "Scholarly Annotations:"] ++
  (p.text_annotations.take 10).filterMap
    (fun a => if a.content = [] then none else some (lit "  " ++ a.content)) ++
  (if 10 < p.text_annotations.length then
     [lit "\n... and " ++ natStr (p.text_annotations.length - 10) ++
       lit " more annotations"]
   else [])

/-- Content of the annotation-context chunk (`chunk3_text`). -/
def chunk3Text (d : StructuredDocument) (p : Poem) : Str := joinLines (chunk3Parts d p)

/-- The primary poem-content chunk (`chunk1`). -/
def mkChunk1 (d : StructuredDocument) (k : ℕ) : TChunk :=
  { chunk_id := chunkIdStr k,
    source_document_id := d.id,
    chunk_type := lit "poem_content",
    content := chunk1Text d,
    char_count := (chunk1Text d).length,
    meta := .contentMeta d.metadata.persona d.metadata.time_period d.title
      d.metadata.poem_type d.metadata.language d.metadata.has_allusions
      d.metadata.has_annotations }

/-- The allusion-context chunk (`chunk2`). -/
def mkChunk2 (d : StructuredDocument) (p : Poem) (k : ℕ) : TChunk :=
  { chunk_id := chunkIdStr k,
    source_document_id := d.id,
    chunk_type := lit "allusions_context",
    content := chunk2Text d p,
    char_count := (chunk2Text d p).length,
    meta := .allusionsMeta d.metadata.persona d.metadata.time_period d.title
      d.metadata.poem_type d.metadata.language p.allusions.length }

/-- The annotation-context chunk (`chunk3`). -/
def mkChunk3 (d : StructuredDocument) (p : Poem) (k : ℕ) : TChunk :=
  { chunk_id := chunkIdStr k,
    source_document_id := d.id,
    chunk_type := lit "annotations_context",
    content := chunk3Text d p,
    char_count := (chunk3Text d p).length,
    meta := .annotationsMeta d.metadata.persona d.metadata.time_period d.title
      d.metadata.poem_type d.metadata.language p.text_annotations.length }

/-- Embedding of `next((p for p in self.poems if p['poem_id'] == ...), None)`:
first poem whose id matches. -/
def lookupPoem (poems : List Poem) (pid : Str) : Option Poem :=
  poems.find? (fun q => q.poem_id == pid)

/-- Chunks emitted for one structured document, together with the updated
chunk counter: always the primary chunk, plus the allusion-context chunk when
the looked-up poem has allusions, plus the annotation-context chunk when it
has text annotations. -/
def docChunks (poems : List Poem) (d : StructuredDocument) (k : ℕ) :
    List TChunk × ℕ :=
  match lookupPoem poems d.source.poem_id with
  | none => ([mkChunk1 d k], k + 1)
  | some p =>
    if p.allusions = [] then
      if p.text_annotations = [] then ([mkChunk1 d k], k + 1)
      else ([mkChunk1 d k, mkChunk3 d p (k + 1)], k + 2)
    else
      if p.text_annotations = [] then ([mkChunk1 d k, mkChunk2 d p (k + 1)], k + 2)
      else ([mkChunk1 d k, mkChunk2 d p (k + 1), mkChunk3 d p (k + 2)], k + 3)

/-- The document loop of `_generate_training_chunks`, threading the shared
chunk counter through the documents. -/
def genChunksAux (poems : List Poem) : List StructuredDocument → ℕ → List TChunk
  | [], _ => []
  | d :: ds, k =>
    let r := docChunks poems d k
    r.1 ++ genChunksAux poems ds r.2

/-- Embedding of the whole Du Fu processing pass: structure every poem
(`_create_structured_documents`), then generate training chunks with the
counter starting at 1 (`_generate_training_chunks`). -/
def generateTrainingChunks (poems : List Poem) (extraction_date now : Str) :
    List TChunk :=
  genChunksAux poems (poems.map (createDoc extraction_date now)) 1

/-!
## Dataset validator
(`DatasetValidator` and `main` in `tools/validation/validate_dataset.py`)

Documents and chunks arrive as JSON dictionaries; a field read with
`dict.get` is modelled as `Option Str` (`none` = key absent).  Python
truthiness of such a field is `some s` with `s` non-empty.
-/

/-- The fields of a document dictionary that the validator reads. -/
structure VDoc where
  id : Option Str
  title : Option Str
  vtype : Option Str
  content : Option Str
deriving DecidableEq

/-- The fields of a chunk dictionary that the validator reads (both the `id` /
`chunk_id` and `source_document_id` / `document_id` spellings are supported). -/
structure VChunk where
  id : Option Str
  chunk_id : Option Str
  source_document_id : Option Str
  document_id : Option Str
  content : Option Str
deriving DecidableEq

/-- Python truthiness of an optional string field. -/
def truthyO (o : Option Str) : Bool :=
  match o with
  | none => false
  | some s => !s.isEmpty

/-- Python `a or b` on two `dict.get` results. -/
def pyOr (a b : Option Str) : Option Str := if truthyO a then a else b

/-- Rendering of an optional string inside an f-string (`None` when absent). -/
def optStr (o : Option Str) : Str :=
  match o with
  | none => lit "None"
  | some s => s

/-- The chunk id used in validator messages:
`chunk.get('id') or chunk.get('chunk_id')`. -/
def vchunkId (c : VChunk) : Option Str := pyOr c.id c.chunk_id

/-- The source document id of a chunk:
`chunk.get('source_document_id') or chunk.get('document_id')`. -/
def vchunkSource (c : VChunk) : Option Str := pyOr c.source_document_id c.document_id

/-- Missing-required-field issues for document `i` (fields `id`, `title`,
`type`, `content`, in loop order). -/
def docReqIssues (i : ℕ) (d : VDoc) : List Str :=
  (if d.id.isSome then [] else [lit "Document " ++ natStr i ++ lit " missing field: id"]) ++
  (if d.title.isSome then [] else [lit "Document " ++ natStr i ++ lit " missing field: title"]) ++
  (if d.vtype.isSome then [] else [lit "Document " ++ natStr i ++ lit " missing field: type"]) ++
  (if d.content.isSome then [] else [lit "Document " ++ natStr i ++ lit " missing field: content"])

/-- The empty-content warning for a document. -/
def docContentWarn (d : VDoc) : Str :=
  lit "Document " ++ optStr d.id ++ lit " has empty content"

/-- The document loop of `_validate_documents`: position `i`, the set of ids
seen so far, and the remaining documents; returns the issues and warnings it
appends. -/
def docLoop : ℕ → List Str → List VDoc → List Str × List Str
  | _, _, [] => ([], [])
  | i, seen, d :: ds =>
    let dup : List Str × List Str :=
      match d.id with
      | none => ([], seen)
      | some s =>
        if s = [] then ([], seen)
        else ((if s ∈ seen then [lit "Duplicate document ID: " ++ s] else []), s :: seen)
    let w : List Str := if truthyO d.content then [] else [docContentWarn d]
    let r := docLoop (i + 1) dup.2 ds
    (docReqIssues i d ++ dup.1 ++ r.1, w ++ r.2)

/-- Issues and warnings collected by the per-document loop of
`_validate_documents`. -/
def docChecks (docs : List VDoc) : List Str × List Str := docLoop 0 [] docs

/-- The empty-content warning for a chunk. -/
def chunkContentWarn (c : VChunk) : Str :=
  lit "Chunk " ++ optStr (vchunkId c) ++ lit " has empty content"

/-- The chunk loop of `_validate_chunks`. -/
def chunkLoop : ℕ → List Str → List VChunk → List Str × List Str
  | _, _, [] => ([], [])
  | i, seen, c :: cs =>
    let idPart : List Str × List Str :=
      match vchunkId c with
      | none => ([lit "Chunk " ++ natStr i ++ lit " missing ID field (id or chunk_id)"], seen)
      | some s =>
        if s = [] then
          ([lit "Chunk " ++ natStr i ++ lit " missing ID field (id or chunk_id)"], seen)
        else ((if s ∈ seen then [lit "Duplicate chunk ID: " ++ s] else []), s :: seen)
    let srcIssue : List Str :=
      if truthyO (vchunkSource c) then []
      else [lit "Chunk " ++ natStr i ++ lit " missing source document field"]
    let w : List Str := if truthyO c.content then [] else [chunkContentWarn c]
    let r := chunkLoop (i + 1) idPart.2 cs
    (idPart.1 ++ srcIssue ++ r.1, w ++ r.2)

/-- Issues and warnings collected by the per-chunk loop of
`_validate_chunks`. -/
def chunkChecks (chunks : List VChunk) : List Str × List Str := chunkLoop 0 [] chunks

/-- The orphan-chunk warning of `_cross_validate`: one aggregate warning when
some chunk's source document id resolves to no document id. -/
def crossWarn (docs : List VDoc) (chunks : List VChunk) : List Str :=
  let doc_ids := docs.filterMap (fun d => d.id)
  let orphans := chunks.filterMap (fun c =>
    match vchunkSource c with
    | none => none
    | some s => if s ≠ [] ∧ s ∉ doc_ids then some (optStr (vchunkId c)) else none)
  if orphans = [] then []
  else [natStr orphans.length ++ lit " chunks reference non-existent documents"]

/-- Missing-required-file issues of `_check_required_files`; the three flags
say whether `structured_documents.json`, `training_chunks.json` and
`dataset_metadata.json` exist. -/
def fileIssues (f1 f2 f3 : Bool) : List Str :=
  (if f1 then [] else [lit "Required file missing: structured_documents.json"]) ++
  (if f2 then [] else [lit "Required file missing: training_chunks.json"]) ++
  (if f3 then [] else [lit "Required file missing: dataset_metadata.json"])

/-- Result of a validator run: the collected issues and warnings, the boolean
`validate()` returns, and the document/chunk data held by the validator when
it finishes (the code only ever reads them). -/
structure VResult where
  issues : List Str
  warnings : List Str
  ok : Bool
  docsOut : List VDoc
  chunksOut : List VChunk
deriving DecidableEq

/-- Embedding of `DatasetValidator.validate`: required files, document
checks, chunk checks, cross-validation; each failing stage returns `False`
early (with the issues collected so far), and the final return value is
`len(self.issues) == 0`. -/
def validateRun (f1 f2 f3 : Bool) (docs : List VDoc) (chunks : List VChunk) :
    VResult :=
  let fIss := fileIssues f1 f2 f3
  if fIss ≠ [] then ⟨fIss, [], false, docs, chunks⟩
  else if docs.length = 0 then
    ⟨[lit "structured_documents.json is empty"], [], false, docs, chunks⟩
  else
    let dr := docChecks docs
    if dr.1 ≠ [] then ⟨dr.1, dr.2, false, docs, chunks⟩
    else if chunks.length = 0 then
      ⟨dr.1 ++ [lit "training_chunks.json is empty"], dr.2, false, docs, chunks⟩
    else
      let cr := chunkChecks chunks
      if cr.1 ≠ [] then ⟨dr.1 ++ cr.1, dr.2 ++ cr.2, false, docs, chunks⟩
      else
        ⟨dr.1 ++ cr.1, dr.2 ++ cr.2 ++ crossWarn docs chunks, true, docs, chunks⟩

/-- Embedding of the exit status chosen by `main`:
`sys.exit(0 if success else 1)`. -/
def exitCode (r : VResult) : ℕ := if r.ok then 0 else 1

/-!
## Streaming XML record extractor
(`DuFuXMLExtractor.extract_all_dufu_poems` and `_extract_poem_data` in
`tools/data_collection/du_fu/extract_from_xml.py`)

`xml.etree` elements are modelled as trees; `ET.iterparse(..., events=("end",))`
delivers each record element fully parsed, and — per the library's semantics —
the element stays attached to the (partially built) root after its end event.
The scan model therefore keeps the root's child buffer explicitly:
`elem.clear()` empties an element in place but does not detach it.
-/

/-- An XML element: tag, attributes, text, children. -/
inductive XElem where
  | mk (tag : Str) (attrs : List (Str × Str)) (text : Str) (children : List XElem)

/-- Tag of an element. -/
def XElem.tag : XElem → Str
  | .mk t _ _ _ => t

/-- Attribute list of an element. -/
def XElem.attrs : XElem → List (Str × Str)
  | .mk _ a _ _ => a

/-- Text of an element (`elem.text or ''`). -/
def XElem.text : XElem → Str
  | .mk _ _ x _ => x

/-- Children of an element. -/
def XElem.children : XElem → List XElem
  | .mk _ _ _ cs => cs

/-- Embedding of `Element.clear()`: removes all subelements, clears the
attributes and resets the text; the element object itself (its tag) remains. -/
def clearElem (e : XElem) : XElem := .mk e.tag [] [] []

/-- Embedding of `elem.get(key, '')`. -/
def getA (e : XElem) (k : Str) : Str :=
  match e.attrs.find? (fun kv => kv.1 == k) with
  | some kv => kv.2
  | none => []

/-- Embedding of `elem.find(tag)` (first matching direct child). -/
def findC (e : XElem) (t : Str) : Option XElem :=
  e.children.find? (fun c => c.tag == t)

/-- Embedding of `elem.findall(tag)` (all matching direct children). -/
def findAllC (e : XElem) (t : Str) : List XElem :=
  e.children.filter (fun c => c.tag == t)

mutual

/-- Embedding of `elem.iter(tag)`: the element itself (if its tag matches)
followed by all matching descendants in document order. -/
def iterTag : XElem → Str → List XElem
  | .mk tg a x cs, t =>
    (if tg == t then [XElem.mk tg a x cs] else []) ++ iterTagList cs t

/-- `iterTag` over a list of children. -/
def iterTagList : List XElem → Str → List XElem
  | [], _ => []
  | e :: rest, t => iterTag e t ++ iterTagList rest t

end

/-- Embedding of `_extract_annotations`: annotations of an optional `Ns`
element, each with type tag, index and content. -/
def extractAnnotations (ns : Option XElem) : List Annot3 :=
  match ns with
  | none => []
  | some e => (findAllC e (lit "N")).map (fun n =>
      { typeTag := getA n (lit "T"), index := getA n (lit "I"), content := n.text })

/-- Embedding of `_extract_annotations_by_type` for one recognised type tag:
all `N` descendants with that tag, keeping index and content. -/
def annotationsOfType (e : XElem) (t : Str) : List Annotation :=
  (iterTag e (lit "N")).filterMap (fun n =>
    if getA n (lit "T") == t then some { index := getA n (lit "I"), content := n.text }
    else none)

/-- Python `text.isdigit() and int(text)` for the `SIs` sentence-index lists. -/
def parseDigits (s : Str) : Option ℕ :=
  if s ≠ [] ∧ ∀ c ∈ s, c.isDigit then
    some (Nat.ofDigits 10 (s.map charVal).reverse)
  else none

/-- Embedding of `_extract_poem_data`: reads one fully parsed `Poem` element
into the raw record dictionary. -/
def extractPoemData (e : XElem) : Poem :=
  { poem_id := getA e (lit "Id"),
    author := getA e (lit "AU"),
    author_id := getA e (lit "AId"),
    dynasty := getA e (lit "D"),
    creation_date := getA e (lit "AD"),
    group_number := getA e (lit "G"),
    place_code := getA e (lit "AP"),
    poem_type := getA e (lit "T"),
    poem_type_detail := getA e (lit "TD"),
    rhyme_category := getA e (lit "R"),
    rhyme_number := getA e (lit "RA"),
    final_rhyme := getA e (lit "FR"),
    has_title := getA e (lit "TS") == lit "true",
    title := match findC e (lit "Title") with
      | some t => getA t (lit "C")
      | none => [],
    title_annotations := match findC e (lit "Title") with
      | some t => extractAnnotations (findC t (lit "Ns"))
      | none => [],
    lines := match findC e (lit "Jus") with
      | some j => (findAllC j (lit "Ju")).map (fun ju => getA ju (lit "C"))
      | none => [],
    line_tones := match findC e (lit "Jus") with
      | some j => (findAllC j (lit "Ju")).map (fun ju => getA ju (lit "T"))
      | none => [],
    line_rhymes := match findC e (lit "Jus") with
      | some j => (findAllC j (lit "Ju")).map (fun ju => getA ju (lit "R"))
      | none => [],
    line_annotations := match findC e (lit "Jus") with
      | some j => (findAllC j (lit "Ju")).map (fun ju => extractAnnotations (findC ju (lit "Ns")))
      | none => [],
    allusions := match findC e (lit "As") with
      | some a => (findAllC a (lit "A")).map (fun x =>
          { allusion_id := getA x (lit "AI"), sentence_index := getA x (lit "SI"),
            text := x.text })
      | none => [],
    source_books := match findC e (lit "Fs") with
      | some f => (findAllC f (lit "F")).filterMap (fun x =>
          if x.text = [] then none else some x.text)
      | none => [],
    text_annotations := annotationsOfType e (lit "Text"),
    word_dict_annotations := annotationsOfType e (lit "WordDictInJson"),
    char_dict_annotations := annotationsOfType e (lit "CharDictInJson"),
    allusion_key_annotations := annotationsOfType e (lit "AllusionKey"),
    image_annotations := annotationsOfType e (lit "Image"),
    sentence_indices := match findC e (lit "SIs") with
      | some s => (findAllC s (lit "SI")).map (fun si =>
          (findAllC si (lit "int")).filterMap (fun i => parseDigits i.text))
      | none => [] }

/-- State of the iterparse scan: the root's accumulated children, the scan
statistics, and the matched records. -/
structure ScanState where
  rootChildren : List XElem
  totalScanned : ℕ
  found : List Poem
  authorId : Option Str

/-- One `(end, elem)` event of the scan loop: a `Poem` element is counted,
extracted when its `AU` attribute is `杜甫`, and then cleared — but the
cleared element remains attached as a child of the root.  Elements with other
tags are left untouched. -/
def scanStep (st : ScanState) (e : XElem) : ScanState :=
  if e.tag == lit "Poem" then
    let matched := getA e (lit "AU") == lit "杜甫"
    { rootChildren := st.rootChildren ++ [clearElem e],
      totalScanned := st.totalScanned + 1,
      found := if matched then st.found ++ [extractPoemData e] else st.found,
      authorId :=
        if matched then
          match st.authorId with
          | none => some (getA e (lit "AId"))
          | some s => if s = [] then some (getA e (lit "AId")) else some s
        else st.authorId }
  else { st with rootChildren := st.rootChildren ++ [e] }

/-- Embedding of the `for event, elem in context` loop of
`extract_all_dufu_poems` over the stream of completed record elements. -/
def runScan (es : List XElem) : ScanState :=
  es.foldl scanStep ⟨[], 0, [], none⟩

/-- Rewrites a document's content to a fixed non-empty value, keeping the
field present exactly when it was; used to state that the validator's issue
list never depends on content values. -/
def maskDocContent (d : VDoc) : VDoc :=
  { d with content := d.content.map (fun _ => lit "x") }

/-- Rewrites a chunk's content to a fixed non-empty value, keeping the field
present exactly when it was. -/
def maskChunkContent (c : VChunk) : VChunk :=
  { c with content := c.content.map (fun _ => lit "x") }

/-- A word as produced by `str.split()`: non-empty and free of whitespace. -/
def GoodWord (w : Str) : Prop := w ≠ [] ∧ ∀ c ∈ w, isSpc c = false

/-- Number of windows the 500/100 chunker emits for `r` remaining words. -/
def winCount (r : ℕ) : ℕ := (r + 399) / 400

/-- The concatenation of the chunks' non-overlapping portions in chunk-index
order: the first chunk contributes all of its words, every later chunk its
words beyond the 100-word overlap with its predecessor. -/
def nonOverlapWords (cs : List QChunk) : List Str :=
  match cs with
  | [] => []
  | c :: rest => pySplit c.content ++ (rest.map (fun c2 => (pySplit c2.content).drop 100)).flatten

/-- `_create_chunks` calls `_chunk_document` with `chunk_size = 500` and
`overlap = 100` for every document. -/
def chunkDocument500 (doc : QDoc) : List QChunk :=
  chunkDocument doc 500 100 (by norm_num)

/-- A concrete poem with one allusion and no annotations (test input). -/
def pAllu : Poem :=
  { poem_id := lit "1", author := lit "杜甫", author_id := lit "9",
    dynasty := lit "唐", creation_date := lit "757", group_number := [],
    place_code := [], poem_type := lit "五律", poem_type_detail := [],
    rhyme_category := [], rhyme_number := [], final_rhyme := [],
    has_title := true, title := lit "春望", title_annotations := [],
    lines := [lit "国破山河在"], line_tones := [], line_rhymes := [],
    line_annotations := [],
    allusions := [⟨lit "a1", lit "0", lit "典故"⟩], source_books := [],
    text_annotations := [], word_dict_annotations := [],
    char_dict_annotations := [], allusion_key_annotations := [],
    image_annotations := [], sentence_indices := [] }

/-- A concrete poem with neither allusions nor annotations (test input). -/
def pPlain : Poem :=
  { poem_id := lit "2", author := lit "杜甫", author_id := lit "9",
    dynasty := lit "唐", creation_date := [], group_number := [],
    place_code := [], poem_type := [], poem_type_detail := [],
    rhyme_category := [], rhyme_number := [], final_rhyme := [],
    has_title := false, title := [], title_annotations := [],
    lines := [lit "无题句"], line_tones := [], line_rhymes := [],
    line_annotations := [], allusions := [], source_books := [],
    text_annotations := [], word_dict_annotations := [],
    char_dict_annotations := [], allusion_key_annotations := [],
    image_annotations := [], sentence_indices := [] }

/-- Number of annotation-context chunks a document yields: one exactly when
its looked-up poem has text annotations. -/
def annCountOf (poems : List Poem) (d : StructuredDocument) : ℕ :=
  match lookupPoem poems d.source.poem_id with
  | none => 0
  | some p => if p.text_annotations = [] then 0 else 1

/-- A concrete poem with six annotations and no allusions (test input). -/
def pSix : Poem :=
  { poem_id := lit "3", author := lit "杜甫", author_id := lit "9",
    dynasty := lit "唐", creation_date := [], group_number := [],
    place_code := [], poem_type := [], poem_type_detail := [],
    rhyme_category := [], rhyme_number := [], final_rhyme := [],
    has_title := true, title := lit "T", title_annotations := [],
    lines := [lit "line"], line_tones := [], line_rhymes := [],
    line_annotations := [], allusions := [], source_books := [],
    text_annotations :=
      [⟨lit "0", lit "a1"⟩, ⟨lit "1", lit "a2"⟩, ⟨lit "2", lit "a3"⟩,
       ⟨lit "3", lit "a4"⟩, ⟨lit "4", lit "a5"⟩, ⟨lit "5", lit "a6"⟩],
    word_dict_annotations := [], char_dict_annotations := [],
    allusion_key_annotations := [], image_annotations := [],
    sentence_indices := [] }

/-!
## Claim C4 — mapper idempotence
-/

/-- C4: Running the Record-to-Document Mapper twice on the same RawRecord
produces identical StructuredDocument output apart from the separate
processing-timestamp field: for any two run timestamps the results agree once
`source.processed` is erased, and in particular the content block, the id and
the metadata carry no timestamp at all. -/
theorem c4_mapper_idempotent (extraction_date t1 t2 : Str) (p : Poem) :
    eraseTimestamp (createDoc extraction_date t1 p) =
      eraseTimestamp (createDoc extraction_date t2 p) ∧
    (createDoc extraction_date t1 p).content = (createDoc extraction_date t2 p).content ∧
    (createDoc extraction_date t1 p).id = (createDoc extraction_date t2 p).id ∧
    (createDoc extraction_date t1 p).metadata = (createDoc extraction_date t2 p).metadata :=
  ⟨rfl, rfl, rfl, rfl⟩

/-!
## Claim C3 — windowing termination
-/

/-- C3 counterexample: with window size 500 and overlap 500 (overlap ≥ W) on a
one-word document, the start index never advances, so no tested start value
ever reaches the end of the word list: the loop of `_chunk_document` does not
terminate, contradicting the claim that it stops when the start would not
advance. -/
theorem c3_counterexample : ¬ WindowingTerminates 1 500 500 := by
  rintro ⟨k, hk⟩
  simp [winStart] at hk

/-- C3 (amended): the windowing loop terminates exactly when the document is
empty or the overlap is smaller than the window size; the source has no guard
against a non-advancing start index, so for `overlap ≥ W` on a non-empty word
list the loop runs forever. -/
theorem c3_amended (n W ov : ℕ) :
    WindowingTerminates n W ov ↔ (n = 0 ∨ ov < W) := by
  constructor
  · rintro ⟨k, hk⟩
    by_contra hc
    push_neg at hc
    obtain ⟨hn, hWov⟩ := hc
    have hstride : (W : ℤ) - (ov : ℤ) ≤ 0 := by omega
    have hle : winStart W ov k ≤ 0 :=
      mul_nonpos_of_nonneg_of_nonpos (by positivity) hstride
    have hpos : (0 : ℤ) < (n : ℤ) := by exact_mod_cast Nat.pos_of_ne_zero hn
    omega
  · rintro (rfl | h)
    · exact ⟨0, by simp [winStart]⟩
    · refine ⟨n, ?_⟩
      have h1 : (1 : ℤ) ≤ (W : ℤ) - (ov : ℤ) := by
        have := h
        omega
      calc (n : ℤ) = (n : ℤ) * 1 := by ring
        _ ≤ (n : ℤ) * ((W : ℤ) - (ov : ℤ)) :=
            mul_le_mul_of_nonneg_left h1 (by positivity)

/-!
## Claim C5 — id uniqueness: counterexample
-/

/-- C5 counterexample: `_generate_doc_id` derives the Queen Elizabeth II
document id from the title alone, stripping punctuation; two distinct
documents whose titles differ only by a trailing period receive the same id,
so a produced dataset can contain distinct documents with equal ids. -/
theorem c5_counterexample :
    generateDocId ⟨lit "Coronation.", lit "first text"⟩ =
      generateDocId ⟨lit "Coronation", lit "second text"⟩ ∧
    (⟨lit "Coronation.", lit "first text"⟩ : RawDocQE) ≠
      ⟨lit "Coronation", lit "second text"⟩ := by
  constructor
  · decide
  · decide

/-!
## Claim C6 — validator pass/fail semantics
-/

/-- C6: the validator's result is pass exactly when zero hard issues were
collected (warnings never enter that test), the entry point's exit code is 0
on pass and 1 on failure, and the document and chunk data the validator holds
at the end are the unmodified inputs. -/
theorem c6_validator_pass_iff (f1 f2 f3 : Bool) (docs : List VDoc)
    (chunks : List VChunk) :
    ((validateRun f1 f2 f3 docs chunks).ok = true ↔
      (validateRun f1 f2 f3 docs chunks).issues = []) ∧
    (exitCode (validateRun f1 f2 f3 docs chunks) =
      if (validateRun f1 f2 f3 docs chunks).issues = [] then 0 else 1) ∧
    (validateRun f1 f2 f3 docs chunks).docsOut = docs ∧
    (validateRun f1 f2 f3 docs chunks).chunksOut = chunks := by
  by_cases hf : fileIssues f1 f2 f3 = []
  · by_cases hd : docs.length = 0
    · simp [validateRun, exitCode, hf, hd]
    · by_cases hdi : (docChecks docs).1 = []
      · by_cases hc : chunks.length = 0
        · simp [validateRun, exitCode, hf, hd, hdi, hc]
        · by_cases hci : (chunkChecks chunks).1 = []
          · simp [validateRun, exitCode, hf, hd, hdi, hc, hci]
          · simp [validateRun, exitCode, hf, hd, hdi, hc, hci]
      · simp [validateRun, exitCode, hf, hd, hdi]
  · simp [validateRun, exitCode, hf]

/-!
## Claim C7 — empty-content handling in the validator
-/

/-- C7 counterexample: a chunk whose content is a single space (whitespace
only, so `content.strip()` is empty) produces neither an issue nor a warning,
and the validation passes — empty and whitespace-only content never yields a
fail-worthy issue, contradicting the claim. -/
theorem c7_counterexample :
    (validateRun true true true
        [⟨some (lit "d1"), some (lit "T"), some (lit "biography"), some (lit "x")⟩]
        [⟨none, some (lit "c1"), some (lit "d1"), none, some (lit " ")⟩]).issues = [] ∧
    (validateRun true true true
        [⟨some (lit "d1"), some (lit "T"), some (lit "biography"), some (lit "x")⟩]
        [⟨none, some (lit "c1"), some (lit "d1"), none, some (lit " ")⟩]).warnings = [] ∧
    (validateRun true true true
        [⟨some (lit "d1"), some (lit "T"), some (lit "biography"), some (lit "x")⟩]
        [⟨none, some (lit "c1"), some (lit "d1"), none, some (lit " ")⟩]).ok = true := by
  decide

/-- Warnings produced by the document loop: exactly one per document whose
content field is missing or empty, in document order. -/
theorem docLoop_warnings (docs : List VDoc) :
    ∀ i seen, (docLoop i seen docs).2 =
      (docs.filter (fun d => !truthyO d.content)).map docContentWarn := by
  induction docs with
  | nil => intro i seen; rfl
  | cons d ds ih =>
    intro i seen
    by_cases hc : truthyO d.content
    · simp [docLoop, hc, ih]
    · simp [docLoop, hc, ih]

/-- Warnings produced by the chunk loop: exactly one per chunk whose content
field is missing or empty, in chunk order. -/
theorem chunkLoop_warnings (chunks : List VChunk) :
    ∀ i seen, (chunkLoop i seen chunks).2 =
      (chunks.filter (fun c => !truthyO c.content)).map chunkContentWarn := by
  induction chunks with
  | nil => intro i seen; rfl
  | cons c cs ih =>
    intro i seen
    by_cases hc : truthyO c.content
    · simp [chunkLoop, hc, ih]
    · simp [chunkLoop, hc, ih]

/-- The issue list of the document loop does not depend on content values,
only on content presence. -/
theorem docLoop_issues_content (docs : List VDoc) :
    ∀ i seen, (docLoop i seen (docs.map maskDocContent)).1 = (docLoop i seen docs).1 := by
  induction docs with
  | nil => intro i seen; rfl
  | cons d ds ih =>
    intro i seen
    simp only [List.map_cons, docLoop, maskDocContent]
    have hreq : ∀ j, docReqIssues j { d with content := d.content.map (fun _ => lit "x") } =
        docReqIssues j d := by
      intro j
      simp [docReqIssues]
    rw [hreq, ih]

/-- The issue list of the chunk loop does not depend on content values, only
on content presence. -/
theorem chunkLoop_issues_content (chunks : List VChunk) :
    ∀ i seen, (chunkLoop i seen (chunks.map maskChunkContent)).1 = (chunkLoop i seen chunks).1 := by
  induction chunks with
  | nil => intro i seen; rfl
  | cons c cs ih =>
    intro i seen
    simp only [List.map_cons, chunkLoop, maskChunkContent]
    rw [ih]
    rfl

/-- The validator never drops chunks: the chunk data it ends with is the
input. -/
theorem validateRun_chunksOut (f1 f2 f3 : Bool) (docs : List VDoc)
    (chunks : List VChunk) :
    (validateRun f1 f2 f3 docs chunks).chunksOut = chunks := by
  simp only [validateRun]
  split_ifs <;> rfl

/-- C7 (amended): missing or empty content yields a validation warning — not
a fail-worthy issue — one per offending document or chunk, collected in
aggregate over the whole corpus; whitespace-only content is not flagged at
all (Python truthiness); the issue list never depends on content values; and
chunks are flagged rather than dropped. -/
theorem c7_amended (docs : List VDoc) (chunks : List VChunk) :
    (docChecks docs).2 =
      (docs.filter (fun d => !truthyO d.content)).map docContentWarn ∧
    (chunkChecks chunks).2 =
      (chunks.filter (fun c => !truthyO c.content)).map chunkContentWarn ∧
    (docChecks (docs.map maskDocContent)).1 = (docChecks docs).1 ∧
    (chunkChecks (chunks.map maskChunkContent)).1 = (chunkChecks chunks).1 ∧
    (validateRun true true true docs chunks).chunksOut = chunks :=
  ⟨docLoop_warnings docs 0 [], chunkLoop_warnings chunks 0 [],
   docLoop_issues_content docs 0 [], chunkLoop_issues_content chunks 0 [],
   validateRun_chunksOut true true true docs chunks⟩

/-!
## Claim C9 — memory discipline of the streaming scan
-/

/-- Helper for C9: the scan appends one element to the root's child buffer
per record and never removes anything — cleared record subtrees remain
attached to the root. -/
theorem scan_rootChildren (es : List XElem) :
    ∀ st : ScanState, (∀ e ∈ es, e.tag = lit "Poem") →
      (es.foldl scanStep st).rootChildren = st.rootChildren ++ es.map clearElem := by
  induction es with
  | nil => intro st _; simp
  | cons e rest ih =>
    intro st hs
    have htag : (e.tag == lit "Poem") = true := by
      simp [hs e (List.mem_cons_self e rest)]
    have hstep : (scanStep st e).rootChildren = st.rootChildren ++ [clearElem e] := by
      simp [scanStep, htag]
    calc ((e :: rest).foldl scanStep st).rootChildren
        = (rest.foldl scanStep (scanStep st e)).rootChildren := by simp
      _ = (scanStep st e).rootChildren ++ rest.map clearElem :=
          ih (scanStep st e) (fun x hx => hs x (List.mem_cons_of_mem e hx))
      _ = st.rootChildren ++ (e :: rest).map clearElem := by
          rw [hstep]; simp

/-- C9 counterexample: scanning three record elements leaves three (cleared)
elements attached to the root — the ancestor accumulation buffer is never
released during the scan, and the root keeps references to every
already-scanned region, contradicting the claim that the buffer is
periodically released. -/
theorem c9_counterexample :
    (runScan [XElem.mk (lit "Poem") [(lit "AU", lit "李白")] [] [],
              XElem.mk (lit "Poem") [(lit "AU", lit "王維")] [] [],
              XElem.mk (lit "Poem") [(lit "AU", lit "白居易")] [] []]).rootChildren.length = 3 ∧
    (runScan [XElem.mk (lit "Poem") [(lit "AU", lit "李白")] [] [],
              XElem.mk (lit "Poem") [(lit "AU", lit "王維")] [] [],
              XElem.mk (lit "Poem") [(lit "AU", lit "白居易")] [] []]).rootChildren ≠ [] := by
  have h : (runScan [XElem.mk (lit "Poem") [(lit "AU", lit "李白")] [] [],
              XElem.mk (lit "Poem") [(lit "AU", lit "王維")] [] [],
              XElem.mk (lit "Poem") [(lit "AU", lit "白居易")] [] []]).rootChildren.length = 3 := by
    decide
  refine ⟨h, ?_⟩
  intro he
  rw [he] at h
  simp at h

/-- C9 (amended): after each record element is fully parsed and tested, its
subtree is released regardless of the match outcome — every element the root
retains has empty attributes, text and children — but the root's child buffer
itself is never released: it keeps one (cleared) element per scanned record
for the whole scan, so its length equals the number of records scanned. -/
theorem c9_amended (es : List XElem) (hs : ∀ e ∈ es, e.tag = lit "Poem") :
    (runScan es).rootChildren = es.map clearElem ∧
    (runScan es).rootChildren.length = es.length ∧
    ∀ e2 ∈ (runScan es).rootChildren,
      e2.attrs = [] ∧ e2.text = [] ∧ e2.children = [] := by
  have hroot : (runScan es).rootChildren = es.map clearElem := by
    have := scan_rootChildren es ⟨[], 0, [], none⟩ hs
    simpa [runScan] using this
  refine ⟨hroot, by rw [hroot]; simp, ?_⟩
  intro e2 he2
  rw [hroot] at he2
  obtain ⟨e, _, rfl⟩ := List.mem_map.mp he2
  exact ⟨rfl, rfl, rfl⟩

/-- Witness for C9 (amended): a concrete two-record scan. -/
theorem c9_amended_witness :
    (∀ e ∈ [XElem.mk (lit "Poem") [(lit "AU", lit "杜甫"), (lit "Id", lit "7")] [] [],
            XElem.mk (lit "Poem") [(lit "AU", lit "李白")] [] []],
        e.tag = lit "Poem") ∧
    ((runScan [XElem.mk (lit "Poem") [(lit "AU", lit "杜甫"), (lit "Id", lit "7")] [] [],
               XElem.mk (lit "Poem") [(lit "AU", lit "李白")] [] []]).rootChildren =
        [XElem.mk (lit "Poem") [(lit "AU", lit "杜甫"), (lit "Id", lit "7")] [] [],
         XElem.mk (lit "Poem") [(lit "AU", lit "李白")] [] []].map clearElem ∧
      (runScan [XElem.mk (lit "Poem") [(lit "AU", lit "杜甫"), (lit "Id", lit "7")] [] [],
                XElem.mk (lit "Poem") [(lit "AU", lit "李白")] [] []]).rootChildren.length =
        [XElem.mk (lit "Poem") [(lit "AU", lit "杜甫"), (lit "Id", lit "7")] [] [],
         XElem.mk (lit "Poem") [(lit "AU", lit "李白")] [] []].length ∧
      ∀ e2 ∈ (runScan [XElem.mk (lit "Poem") [(lit "AU", lit "杜甫"), (lit "Id", lit "7")] [] [],
                       XElem.mk (lit "Poem") [(lit "AU", lit "李白")] [] []]).rootChildren,
        e2.attrs = [] ∧ e2.text = [] ∧ e2.children = []) :=
  ⟨by decide, c9_amended _ (by decide)⟩

/-!
## Claims C1 and C10 — fixed-window segmentation
-/

/-- Every word produced by `pySplitAcc` is non-empty and whitespace-free. -/
theorem pySplitAcc_good (l : Str) :
    ∀ acc, (∀ c ∈ acc, isSpc c = false) → ∀ w ∈ pySplitAcc l acc, GoodWord w := by
  induction l with
  | nil =>
    intro acc hacc w hw
    by_cases h : acc = []
    · simp [pySplitAcc, h] at hw
    · simp only [pySplitAcc, if_neg h, List.mem_singleton] at hw
      subst hw
      refine ⟨by simpa using h, ?_⟩
      intro c hc
      exact hacc c (List.mem_reverse.mp hc)
  | cons c cs ih =>
    intro acc hacc w hw
    by_cases hsp : isSpc c = true
    · by_cases h : acc = []
      · simp only [pySplitAcc, hsp, if_true, h, if_pos rfl] at hw
        exact ih [] (by simp) w hw
      · simp only [pySplitAcc, hsp, if_true, if_neg h, List.mem_cons] at hw
        rcases hw with rfl | hw
        · refine ⟨by simpa using h, ?_⟩
          intro c2 hc2
          exact hacc c2 (List.mem_reverse.mp hc2)
        · exact ih [] (by simp) w hw
    · simp only [pySplitAcc, hsp, if_false] at hw
      refine ih (c :: acc) ?_ w hw
      intro c2 hc2
      rcases List.mem_cons.mp hc2 with rfl | hc2
      · simpa using hsp
      · exact hacc c2 hc2

/-- Every word of `pySplit l` is non-empty and whitespace-free. -/
theorem pySplit_good (l : Str) : ∀ w ∈ pySplit l, GoodWord w :=
  pySplitAcc_good l [] (by simp)

/-- Splitting consumes a whitespace-free prefix into the accumulator. -/
theorem pySplitAcc_word (w : Str) :
    ∀ l acc, (∀ c ∈ w, isSpc c = false) →
      pySplitAcc (w ++ l) acc = pySplitAcc l (w.reverse ++ acc) := by
  induction w with
  | nil => intro l acc _; simp
  | cons c cs ih =>
    intro l acc hg
    have hc : isSpc c = false := hg c (by simp)
    have hstep : pySplitAcc ((c :: cs) ++ l) acc = pySplitAcc (cs ++ l) (c :: acc) := by
      simp [pySplitAcc, hc]
    rw [hstep, ih l (c :: acc) (fun c2 hc2 => hg c2 (List.mem_cons_of_mem c hc2))]
    simp

/-- A space at the head of the input closes the current (non-empty) word. -/
theorem pySplitAcc_space (l : Str) (acc : Str) (hacc : acc ≠ []) :
    pySplitAcc (' ' :: l) acc = acc.reverse :: pySplitAcc l [] := by
  have hsp : isSpc ' ' = true := by decide
  simp [pySplitAcc, hsp, hacc]

/-- Round trip between `' '.join` and `str.split()`: splitting the join of
good words returns exactly those words. -/
theorem pySplit_joinWords (ws : List Str) (hws : ∀ w ∈ ws, GoodWord w) :
    pySplit (joinWords ws) = ws := by
  induction ws with
  | nil => rfl
  | cons w rest ih =>
    have hw : GoodWord w := hws w (by simp)
    have hne : w.reverse ≠ [] := by
      rw [Ne, List.reverse_eq_nil_iff]
      exact hw.1
    cases rest with
    | nil =>
      show pySplitAcc (joinWords [w]) [] = [w]
      have hj : joinWords [w] = w ++ [] := by simp [joinWords]
      rw [hj, pySplitAcc_word w [] [] hw.2, List.append_nil]
      simp only [pySplitAcc]
      rw [if_neg hne, List.reverse_reverse]
    | cons w2 rest2 =>
      show pySplitAcc (joinWords (w :: w2 :: rest2)) [] = w :: w2 :: rest2
      have hj : joinWords (w :: w2 :: rest2) = w ++ (' ' :: joinWords (w2 :: rest2)) := by
        simp [joinWords]
      rw [hj, pySplitAcc_word w _ [] hw.2, List.append_nil]
      rw [pySplitAcc_space _ _ hne, List.reverse_reverse]
      have hrest := ih (fun x hx => hws x (List.mem_cons_of_mem w hx))
      simp only [pySplit] at hrest
      rw [hrest]

/-- Words of a window slice are good whenever the document's words are. -/
theorem slice_good (words : List Str) (hg : ∀ w ∈ words, GoodWord w)
    (a b : ℕ) : ∀ w ∈ (words.drop a).take b, GoodWord w := by
  intro w hw
  exact hg w (List.mem_of_mem_drop (List.mem_of_mem_take hw))

/-- The words of a generated chunk's content are exactly its window slice. -/
theorem mkQChunk_words (doc : QDoc) (idx : ℕ) (slice : List Str)
    (hs : ∀ w ∈ slice, GoodWord w) :
    pySplit (mkQChunk doc idx slice).content = slice := by
  simp only [mkQChunk]
  exact pySplit_joinWords slice hs

/-- Closed form of the 500/100 window loop: starting at `start`, it emits one
chunk per window, the `j`-th covering words `start + 400·j` through
`start + 400·j + 499` (truncated at the end of the document). -/
theorem chunkFrom500_closed (doc : QDoc) (words : List Str) (h : (100 : ℕ) < 500) :
    ∀ m start idx, words.length - start = m →
      chunkFrom doc words 500 100 h start idx =
        (List.range (winCount m)).map
          (fun j => mkQChunk doc (idx + j) ((words.drop (start + 400 * j)).take 500)) := by
  intro m
  induction m using Nat.strong_induction_on with
  | _ m ih =>
    intro start idx hm
    by_cases hs : start < words.length
    · have hm1 : 1 ≤ m := by omega
      have hc : winCount m = winCount (m - 400) + 1 := by unfold winCount; omega
      rw [chunkFrom]
      rw [dif_pos hs, hc, List.range_succ_eq_map]
      simp only [List.map_cons, List.map_map]
      have h400 : start + (500 - 100) = start + 400 := by norm_num
      rw [h400, ih (m - 400) (by omega) (start + 400) (idx + 1) (by omega)]
      refine congrArg₂ List.cons ?_ ?_
      · simp
      · apply List.map_congr_left
        intro j hj
        simp only [Function.comp_apply]
        have h1 : idx + 1 + j = idx + (j + 1) := by omega
        have h2 : start + 400 + 400 * j = start + 400 * (j + 1) := by ring
        rw [h1, h2]
    · have hm0 : winCount m = 0 := by unfold winCount; omega
      rw [chunkFrom, dif_neg hs, hm0]
      simp

/-- Closed form of `chunkDocument500` over the document's word list. -/
theorem chunkDocument500_closed (doc : QDoc) :
    chunkDocument500 doc =
      (List.range (winCount (pySplit doc.full_text).length)).map
        (fun j => mkQChunk doc j (((pySplit doc.full_text).drop (400 * j)).take 500)) := by
  unfold chunkDocument500 chunkDocument
  rw [chunkFrom500_closed doc _ (by norm_num) ((pySplit doc.full_text).length) 0 0
    (by omega)]
  apply List.map_congr_left
  intro j hj
  simp

/-- The flattened overlap-dropped tails of the window loop reproduce the
word list beyond the first hundred words. -/
theorem chunkFrom_tail_flatten (doc : QDoc) (words : List Str)
    (hg : ∀ w ∈ words, GoodWord w) (h : (100 : ℕ) < 500) :
    ∀ m start idx, words.length - start = m →
      ((chunkFrom doc words 500 100 h start idx).map
        (fun c => (pySplit c.content).drop 100)).flatten = words.drop (start + 100) := by
  intro m
  induction m using Nat.strong_induction_on with
  | _ m ih =>
    intro start idx hm
    by_cases hs : start < words.length
    · rw [chunkFrom, dif_pos hs]
      have h400 : start + (500 - 100) = start + 400 := by norm_num
      rw [h400]
      simp only [List.map_cons, List.flatten_cons]
      rw [mkQChunk_words doc idx _ (slice_good words hg start 500)]
      rw [ih (m - 400) (by omega) (start + 400) (idx + 1) (by omega)]
      rw [List.drop_take]
      have e3 : (500 : ℕ) - 100 = 400 := by norm_num
      rw [e3]
      have hX : List.drop (start + 400 + 100) words =
          List.drop 400 (List.drop 100 (List.drop start words)) := by
        rw [List.drop_drop, List.drop_drop]
        try congr 1
        try omega
      rw [hX, List.take_append_drop, List.drop_drop]
      try congr 1
      try omega
    · rw [chunkFrom, dif_neg hs]
      simp only [List.map_nil, List.flatten_nil]
      exact (List.drop_eq_nil_of_le (by omega)).symm

/-- Reduction of `nonOverlapWords` on a non-empty chunk list. -/
theorem nonOverlapWords_cons (c : QChunk) (rest : List QChunk) :
    nonOverlapWords (c :: rest) =
      pySplit c.content ++ (rest.map (fun c2 => (pySplit c2.content).drop 100)).flatten := rfl

/-- Last element of a non-empty mapped range. -/
theorem range_map_getLastD {α : Type} (g : ℕ → α) (k : ℕ) (d : α) (hk : 0 < k) :
    ((List.range k).map g).getLastD d = g (k - 1) := by
  cases k with
  | zero => omega
  | succ k2 =>
    rw [List.range_succ, List.map_append]
    simp

/-- C1: for every document, concatenating the 500/100 windowed chunks'
non-overlapping portions in chunk-index order reconstructs the document's
word sequence exactly; chunk indices run 0,1,…; the last window has at most
500 and at least one word; and a 1200-word document yields exactly the three
windows at word offsets 0, 400 and 800, the third covering words 800–1199
(400 words). -/
theorem c1_windowing_coverage (doc : QDoc)
    (hne : pySplit doc.full_text ≠ []) :
    nonOverlapWords (chunkDocument500 doc) = pySplit doc.full_text ∧
    (chunkDocument500 doc).map (fun c => c.chunk_index) =
      List.range (chunkDocument500 doc).length ∧
    1 ≤ (pySplit ((chunkDocument500 doc).getLastD defaultQChunk).content).length ∧
    (pySplit ((chunkDocument500 doc).getLastD defaultQChunk).content).length ≤ 500 ∧
    ((pySplit doc.full_text).length = 1200 →
      (chunkDocument500 doc).map (fun c => pySplit c.content) =
        [(pySplit doc.full_text).take 500,
         ((pySplit doc.full_text).drop 400).take 500,
         (pySplit doc.full_text).drop 800] ∧
      ((pySplit doc.full_text).drop 800).length = 400) := by
  have hg : ∀ w ∈ pySplit doc.full_text, GoodWord w := pySplit_good _
  have hn : 0 < (pySplit doc.full_text).length := List.length_pos.mpr hne
  have hk : 0 < winCount (pySplit doc.full_text).length := by
    unfold winCount; omega
  refine ⟨?_, ?_, ?_, ?_, ?_⟩
  · unfold chunkDocument500 chunkDocument
    rw [chunkFrom, dif_pos (by simpa using hn), nonOverlapWords_cons]
    rw [mkQChunk_words doc 0 _ (slice_good _ hg 0 500)]
    have h400 : (0 : ℕ) + (500 - 100) = 400 := by norm_num
    rw [h400]
    rw [chunkFrom_tail_flatten doc _ hg (by norm_num)
      ((pySplit doc.full_text).length - 400) 400 (0 + 1) rfl]
    rw [List.drop_zero]
    have h45 : (400 : ℕ) + 100 = 500 := by norm_num
    rw [h45, List.take_append_drop]
  · rw [chunkDocument500_closed]
    rw [List.map_map, List.length_map, List.length_range]
    have : ∀ j ∈ List.range (winCount (pySplit doc.full_text).length),
        ((fun c => c.chunk_index) ∘
          (fun j => mkQChunk doc j (((pySplit doc.full_text).drop (400 * j)).take 500))) j
          = id j := by
      intro j hj
      rfl
    rw [List.map_congr_left this, List.map_id]
  · rw [chunkDocument500_closed, range_map_getLastD _ _ _ hk]
    rw [mkQChunk_words doc _ _ (slice_good _ hg _ 500)]
    rw [List.length_take, List.length_drop]
    have hlast : 400 * (winCount (pySplit doc.full_text).length - 1) <
        (pySplit doc.full_text).length := by
      unfold winCount at hk ⊢
      omega
    omega
  · rw [chunkDocument500_closed, range_map_getLastD _ _ _ hk]
    rw [mkQChunk_words doc _ _ (slice_good _ hg _ 500)]
    rw [List.length_take, List.length_drop]
    omega
  · intro hlen
    have hw3 : winCount (pySplit doc.full_text).length = 3 := by
      rw [hlen]; decide
    constructor
    · rw [chunkDocument500_closed, hw3]
      have hr : List.range 3 = [0, 1, 2] := rfl
      rw [hr]
      simp only [List.map_cons, List.map_nil]
      rw [mkQChunk_words doc _ _ (slice_good _ hg _ 500),
        mkQChunk_words doc _ _ (slice_good _ hg _ 500),
        mkQChunk_words doc _ _ (slice_good _ hg _ 500)]
      have hd0 : (400 : ℕ) * 0 = 0 := by norm_num
      have hd1 : (400 : ℕ) * 1 = 400 := by norm_num
      have hd2 : (400 : ℕ) * 2 = 800 := by norm_num
      rw [hd0, hd1, hd2, List.drop_zero]
      have htk : ((pySplit doc.full_text).drop 800).take 500 =
          (pySplit doc.full_text).drop 800 := by
        apply List.take_of_length_le
        rw [List.length_drop, hlen]
        norm_num
      rw [htk]
    · rw [List.length_drop, hlen]

/-- Witness for C1: a concrete two-word document. -/
theorem c1_windowing_coverage_witness :
    pySplit (QDoc.mk (lit "qe2_t") (lit "T") (lit "alpha beta") (lit "m") (lit "s")).full_text ≠ [] ∧
    (nonOverlapWords (chunkDocument500 ⟨lit "qe2_t", lit "T", lit "alpha beta", lit "m", lit "s"⟩) =
        pySplit (QDoc.mk (lit "qe2_t") (lit "T") (lit "alpha beta") (lit "m") (lit "s")).full_text ∧
      (chunkDocument500 ⟨lit "qe2_t", lit "T", lit "alpha beta", lit "m", lit "s"⟩).map
          (fun c => c.chunk_index) =
        List.range (chunkDocument500 ⟨lit "qe2_t", lit "T", lit "alpha beta", lit "m", lit "s"⟩).length ∧
      1 ≤ (pySplit ((chunkDocument500 ⟨lit "qe2_t", lit "T", lit "alpha beta", lit "m", lit "s"⟩).getLastD
          defaultQChunk).content).length ∧
      (pySplit ((chunkDocument500 ⟨lit "qe2_t", lit "T", lit "alpha beta", lit "m", lit "s"⟩).getLastD
          defaultQChunk).content).length ≤ 500 ∧
      ((pySplit (QDoc.mk (lit "qe2_t") (lit "T") (lit "alpha beta") (lit "m") (lit "s")).full_text).length = 1200 →
        (chunkDocument500 ⟨lit "qe2_t", lit "T", lit "alpha beta", lit "m", lit "s"⟩).map
            (fun c => pySplit c.content) =
          [(pySplit (QDoc.mk (lit "qe2_t") (lit "T") (lit "alpha beta") (lit "m") (lit "s")).full_text).take 500,
           ((pySplit (QDoc.mk (lit "qe2_t") (lit "T") (lit "alpha beta") (lit "m") (lit "s")).full_text).drop 400).take 500,
           (pySplit (QDoc.mk (lit "qe2_t") (lit "T") (lit "alpha beta") (lit "m") (lit "s")).full_text).drop 800] ∧
        ((pySplit (QDoc.mk (lit "qe2_t") (lit "T") (lit "alpha beta") (lit "m") (lit "s")).full_text).drop 800).length = 400)) :=
  ⟨by decide, c1_windowing_coverage ⟨lit "qe2_t", lit "T", lit "alpha beta", lit "m", lit "s"⟩ (by decide)⟩

/-- C10: a document of `n ≥ 1` words yields exactly `⌈n/400⌉` chunks under
the 500/100 windowing; the chunk at index `i` contains exactly
`min 500 (n − 400·i)` words (between 1 and 500), and its recorded
`word_count` equals the actual number of whitespace-separated words of its
content. -/
theorem c10_chunk_arithmetic (doc : QDoc)
    (h1 : 1 ≤ (pySplit doc.full_text).length) :
    (chunkDocument500 doc).length = ((pySplit doc.full_text).length + 399) / 400 ∧
    ∀ i (hi : i < (chunkDocument500 doc).length),
      (pySplit ((chunkDocument500 doc)[i]).content).length =
        min 500 ((pySplit doc.full_text).length - 400 * i) ∧
      ((chunkDocument500 doc)[i]).word_count =
        min 500 ((pySplit doc.full_text).length - 400 * i) ∧
      1 ≤ min 500 ((pySplit doc.full_text).length - 400 * i) ∧
      min 500 ((pySplit doc.full_text).length - 400 * i) ≤ 500 := by
  have hg : ∀ w ∈ pySplit doc.full_text, GoodWord w := pySplit_good _
  have hlen : (chunkDocument500 doc).length = winCount (pySplit doc.full_text).length := by
    rw [chunkDocument500_closed, List.length_map, List.length_range]
  refine ⟨by rw [hlen]; rfl, ?_⟩
  intro i hi
  have hik : i < winCount (pySplit doc.full_text).length := by
    rw [hlen] at hi; exact hi
  have hbound : 400 * i < (pySplit doc.full_text).length := by
    unfold winCount at hik
    omega
  have hw : (pySplit ((chunkDocument500 doc)[i]).content) =
      ((pySplit doc.full_text).drop (400 * i)).take 500 := by
    simp only [chunkDocument500_closed, List.getElem_map, List.getElem_range]
    exact mkQChunk_words doc _ _ (slice_good _ hg _ 500)
  have hwc : ((chunkDocument500 doc)[i]).word_count =
      (pySplit ((chunkDocument500 doc)[i]).content).length := by
    simp only [chunkDocument500_closed, List.getElem_map, List.getElem_range]
    rfl
  have hl : (((pySplit doc.full_text).drop (400 * i)).take 500).length =
      min 500 ((pySplit doc.full_text).length - 400 * i) := by
    rw [List.length_take, List.length_drop]
  refine ⟨by rw [hw, hl], by rw [hwc, hw, hl], by omega, by omega⟩

/-- Witness for C10: a concrete three-word document. -/
theorem c10_chunk_arithmetic_witness :
    1 ≤ (pySplit (QDoc.mk (lit "d") (lit "T") (lit "a bb ccc") (lit "m") (lit "s")).full_text).length ∧
    ((chunkDocument500 ⟨lit "d", lit "T", lit "a bb ccc", lit "m", lit "s"⟩).length =
        ((pySplit (QDoc.mk (lit "d") (lit "T") (lit "a bb ccc") (lit "m") (lit "s")).full_text).length + 399) / 400 ∧
      ∀ i (hi : i < (chunkDocument500 ⟨lit "d", lit "T", lit "a bb ccc", lit "m", lit "s"⟩).length),
        (pySplit ((chunkDocument500 ⟨lit "d", lit "T", lit "a bb ccc", lit "m", lit "s"⟩)[i]).content).length =
          min 500 ((pySplit (QDoc.mk (lit "d") (lit "T") (lit "a bb ccc") (lit "m") (lit "s")).full_text).length - 400 * i) ∧
        ((chunkDocument500 ⟨lit "d", lit "T", lit "a bb ccc", lit "m", lit "s"⟩)[i]).word_count =
          min 500 ((pySplit (QDoc.mk (lit "d") (lit "T") (lit "a bb ccc") (lit "m") (lit "s")).full_text).length - 400 * i) ∧
        1 ≤ min 500 ((pySplit (QDoc.mk (lit "d") (lit "T") (lit "a bb ccc") (lit "m") (lit "s")).full_text).length - 400 * i) ∧
        min 500 ((pySplit (QDoc.mk (lit "d") (lit "T") (lit "a bb ccc") (lit "m") (lit "s")).full_text).length - 400 * i) ≤ 500) :=
  ⟨by decide, c10_chunk_arithmetic ⟨lit "d", lit "T", lit "a bb ccc", lit "m", lit "s"⟩ (by decide)⟩

/-!
## Digit formatting: injectivity of `f"dufu_chunk_{k:04d}"`
-/

/-- Digits produced by `decDigitsAux` are decimal digits. -/
theorem decDigitsAux_lt (fuel : ℕ) : ∀ n, ∀ d ∈ decDigitsAux fuel n, d < 10 := by
  induction fuel with
  | zero => intro n d hd; simp [decDigitsAux] at hd
  | succ fuel ih =>
    intro n d hd
    cases n with
    | zero => simp [decDigitsAux] at hd
    | succ n2 =>
      simp only [decDigitsAux, List.mem_cons] at hd
      rcases hd with rfl | hd
      · exact Nat.mod_lt _ (by norm_num)
      · exact ih _ d hd

/-- `decDigitsAux` computes a base-10 expansion whenever the fuel suffices. -/
theorem ofDigits_decDigitsAux (fuel : ℕ) :
    ∀ n, n ≤ fuel → Nat.ofDigits 10 (decDigitsAux fuel n) = n := by
  induction fuel with
  | zero =>
    intro n hn
    interval_cases n
    rfl
  | succ fuel ih =>
    intro n hn
    cases n with
    | zero => rfl
    | succ n2 =>
      have hdiv : (n2 + 1) / 10 ≤ fuel := by
        have := Nat.div_lt_self (Nat.succ_pos n2) (by norm_num : (1 : ℕ) < 10)
        omega
      simp only [decDigitsAux, Nat.ofDigits_cons, ih _ hdiv]
      omega

/-- `charVal` inverts `digitChar` on decimal digits. -/
theorem charVal_digitChar (d : ℕ) (hd : d < 10) : charVal (digitChar d) = d := by
  interval_cases d <;> decide

/-- A block of zero digits contributes nothing. -/
theorem ofDigits_replicate_zero (k : ℕ) :
    Nat.ofDigits 10 (List.replicate k 0) = 0 := by
  induction k with
  | zero => rfl
  | succ k ih => simp [List.replicate_succ, Nat.ofDigits_cons, ih]

/-- `fmtVal` decodes `fmt04`, so zero-padded formatting loses nothing. -/
theorem fmtVal_fmt04 (n : ℕ) : fmtVal (fmt04 n) = n := by
  unfold fmtVal fmt04
  rw [List.map_append, List.map_replicate, List.map_map]
  have hz : charVal '0' = 0 := rfl
  have hds : (decDigits n).reverse.map (charVal ∘ digitChar) = (decDigits n).reverse := by
    have hmap : (decDigits n).reverse.map (charVal ∘ digitChar) =
        (decDigits n).reverse.map id := by
      apply List.map_congr_left
      intro d hd
      have : d < 10 := decDigitsAux_lt n n d (by simpa using hd)
      simp [Function.comp, charVal_digitChar d this]
    rw [hmap, List.map_id]
  rw [hz, hds, List.reverse_append, List.reverse_reverse, List.reverse_replicate]
  have happ : Nat.ofDigits 10 (decDigits n ++ List.replicate (4 - (decDigits n).length) 0) =
      Nat.ofDigits 10 (decDigits n) +
        10 ^ (decDigits n).length *
          Nat.ofDigits 10 (List.replicate (4 - (decDigits n).length) 0) := by
    exact_mod_cast Nat.ofDigits_append
  have hod : Nat.ofDigits 10 (decDigits n) = n := ofDigits_decDigitsAux n n le_rfl
  rw [happ, ofDigits_replicate_zero, hod]
  ring

/-- Zero-padded decimal formatting is injective: distinct counters always
give distinct `{k:04d}` strings. -/
theorem fmt04_injective : Function.Injective fmt04 := by
  intro a b h
  rw [← fmtVal_fmt04 a, ← fmtVal_fmt04 b, h]

/-- Chunk-id formatting is injective in the counter. -/
theorem chunkIdStr_injective : Function.Injective chunkIdStr := by
  intro a b h
  exact fmt04_injective (List.append_cancel_left h)

/-!
## Du Fu generator: counter, id and per-document chunk lemmas
-/

/-- Adjacent counter ranges concatenate. -/
theorem range'_append_simple (s m n : ℕ) :
    List.range' s m ++ List.range' (s + m) n = List.range' s (m + n) := by
  rw [Nat.add_comm m n]
  simpa using List.range'_append s m n 1

/-- With pairwise-distinct poem ids, the generator's `next(...)` lookup finds
each poem's own record. -/
theorem lookupPoem_self (poems : List Poem) (p : Poem)
    (hn : (poems.map (fun q => q.poem_id)).Nodup) (hp : p ∈ poems) :
    lookupPoem poems p.poem_id = some p := by
  induction poems with
  | nil => cases hp
  | cons q rest ih =>
    rw [List.map_cons, List.nodup_cons] at hn
    rcases List.mem_cons.mp hp with rfl | hp2
    · exact List.find?_cons_of_pos rest (by simp)
    · have hne : (q.poem_id == p.poem_id) = false := by
        rw [beq_eq_false_iff_ne]
        intro he
        exact hn.1 (he ▸ List.mem_map_of_mem (fun r => r.poem_id) hp2)
      unfold lookupPoem
      rw [List.find?_cons_of_neg rest (by simp [hne])]
      exact ih hn.2 hp2

/-- The counter returned by `docChunks` advances by the number of chunks
emitted. -/
theorem docChunks_snd (poems : List Poem) (d : StructuredDocument) (k : ℕ) :
    (docChunks poems d k).2 = k + (docChunks poems d k).1.length := by
  unfold docChunks
  rcases lookupPoem poems d.source.poem_id with _ | p
  · rfl
  · by_cases h1 : p.allusions = [] <;> by_cases h2 : p.text_annotations = [] <;>
      simp [h1, h2]

/-- Every chunk emitted for a document carries that document's id as its
source document id. -/
theorem docChunks_sdi (poems : List Poem) (d : StructuredDocument) (k : ℕ) :
    ∀ c ∈ (docChunks poems d k).1, c.source_document_id = d.id := by
  unfold docChunks
  rcases lookupPoem poems d.source.poem_id with _ | p
  · intro c hc
    rcases List.mem_singleton.mp hc with rfl
    rfl
  · by_cases h1 : p.allusions = [] <;> by_cases h2 : p.text_annotations = [] <;>
      simp only [h1, h2, if_true, if_false] <;> intro c hc <;>
      simp only [List.mem_cons, List.mem_singleton, List.not_mem_nil, or_false] at hc
    · rcases hc with rfl; rfl
    · rcases hc with rfl | rfl <;> rfl
    · rcases hc with rfl | rfl <;> rfl
    · rcases hc with rfl | rfl | rfl <;> rfl

/-- The chunk ids emitted for one document are the consecutive counters
starting at the current one. -/
theorem docChunks_ids (poems : List Poem) (d : StructuredDocument) (k : ℕ) :
    (docChunks poems d k).1.map (fun c => c.chunk_id) =
      (List.range' k (docChunks poems d k).1.length).map chunkIdStr := by
  unfold docChunks
  rcases lookupPoem poems d.source.poem_id with _ | p
  · simp [List.range', mkChunk1]
  · by_cases h1 : p.allusions = [] <;> by_cases h2 : p.text_annotations = [] <;>
      simp [h1, h2, List.range', mkChunk1, mkChunk2, mkChunk3]

/-- The number of chunks a document yields does not depend on the counter. -/
theorem docChunks_len_k (poems : List Poem) (d : StructuredDocument) (k : ℕ) :
    (docChunks poems d k).1.length = (docChunks poems d 0).1.length := by
  unfold docChunks
  rcases lookupPoem poems d.source.poem_id with _ | p
  · rfl
  · by_cases h1 : p.allusions = [] <;> by_cases h2 : p.text_annotations = [] <;>
      simp [h1, h2]

/-- Chunk count per document in terms of the looked-up poem's allusions and
annotations. -/
theorem docChunks_len_lookup (poems : List Poem) (d : StructuredDocument) (k : ℕ)
    (p : Poem) (hl : lookupPoem poems d.source.poem_id = some p) :
    (docChunks poems d k).1.length =
      1 + (if p.allusions = [] then 0 else 1) +
        (if p.text_annotations = [] then 0 else 1) := by
  unfold docChunks
  rw [hl]
  by_cases h1 : p.allusions = [] <;> by_cases h2 : p.text_annotations = [] <;>
    simp [h1, h2]

/-- The chunk ids of a whole generator run are consecutive counters from the
starting value: formatting with `{k:04d}` over a strictly increasing shared
counter. -/
theorem genChunksAux_ids (poems : List Poem) :
    ∀ (ds : List StructuredDocument) (k : ℕ), ∃ N,
      (genChunksAux poems ds k).map (fun c => c.chunk_id) =
        (List.range' k N).map chunkIdStr := by
  intro ds
  induction ds with
  | nil => intro k; exact ⟨0, rfl⟩
  | cons d ds ih =>
    intro k
    obtain ⟨N, hN⟩ := ih (docChunks poems d k).2
    refine ⟨(docChunks poems d k).1.length + N, ?_⟩
    simp only [genChunksAux]
    rw [List.map_append, docChunks_ids, docChunks_snd poems d k] at *
    rw [hN, ← List.map_append, range'_append_simple]

/-- All of a document's chunks pass a source-document-id filter for its own
id. -/
theorem docChunks_filter_all (poems : List Poem) (d : StructuredDocument)
    (k : ℕ) (tid : Str) (hid : d.id = tid) :
    (docChunks poems d k).1.filter (fun c => c.source_document_id == tid) =
      (docChunks poems d k).1 := by
  apply List.filter_eq_self.mpr
  intro c hc
  rw [beq_iff_eq, docChunks_sdi poems d k c hc, hid]

/-- No chunk of a document passes a source-document-id filter for a different
id. -/
theorem docChunks_filter_none (poems : List Poem) (d : StructuredDocument)
    (k : ℕ) (tid : Str) (hid : d.id ≠ tid) :
    (docChunks poems d k).1.filter (fun c => c.source_document_id == tid) = [] := by
  rw [List.filter_eq_nil_iff]
  intro c hc hbeq
  rw [beq_iff_eq] at hbeq
  exact hid ((docChunks_sdi poems d k c hc) ▸ hbeq)

/-- Counting matching chunks distributes over the document loop. -/
theorem genChunksAux_count_sdi (poems : List Poem) (tid : Str) :
    ∀ (ds : List StructuredDocument) (k : ℕ),
      ((genChunksAux poems ds k).filter
        (fun c => c.source_document_id == tid)).length =
      (ds.map (fun d => if d.id = tid then (docChunks poems d 0).1.length else 0)).sum := by
  intro ds
  induction ds with
  | nil => intro k; rfl
  | cons d ds ih =>
    intro k
    simp only [genChunksAux, List.filter_append, List.length_append, List.map_cons,
      List.sum_cons]
    rw [ih]
    by_cases hid : d.id = tid
    · rw [docChunks_filter_all poems d k tid hid, if_pos hid, docChunks_len_k]
    · rw [docChunks_filter_none poems d k tid hid, if_neg hid]
      rfl

/-- Summing an indicator over a list whose keys are pairwise distinct picks
out the single matching element. -/
theorem sum_if_unique (l : List Poem) (key : Poem → Str) (f : Poem → ℕ) (p : Poem)
    (hn : (l.map key).Nodup) (hp : p ∈ l) :
    (l.map (fun q => if key q = key p then f q else 0)).sum = f p := by
  induction l with
  | nil => cases hp
  | cons q rest ih =>
    rw [List.map_cons, List.nodup_cons] at hn
    rcases List.mem_cons.mp hp with rfl | hp2
    · simp only [List.map_cons, List.sum_cons, if_pos rfl]
      have hzero : (rest.map (fun r => if key r = key p then f r else 0)).sum = 0 := by
        apply List.sum_eq_zero
        intro x hx
        obtain ⟨r, hr, rfl⟩ := List.mem_map.mp hx
        rw [if_neg]
        intro he
        exact hn.1 (he ▸ List.mem_map_of_mem key hr)
      rw [hzero]
      simp
    · have hne : key q ≠ key p := by
        intro he
        exact hn.1 (he ▸ List.mem_map_of_mem key hp2)
      simp only [List.map_cons, List.sum_cons, if_neg hne, Nat.zero_add]
      exact ih hn.2 hp2

/-!
## Claim C2 — structure-aware chunk count
-/

/-- C2: under the data model's invariant that poem ids are unique within an
extraction run, each document contributes exactly
`1 + [has_allusions] + [has_annotations]` chunks (counted by source document
id over the whole run), a number between 1 and 3. -/
theorem c2_chunk_count (poems : List Poem) (ed now : Str) (p : Poem)
    (hn : (poems.map (fun q => q.poem_id)).Nodup) (hp : p ∈ poems) :
    ((generateTrainingChunks poems ed now).filter
        (fun c => c.source_document_id == (createDoc ed now p).id)).length =
      1 + (if (createDoc ed now p).metadata.has_allusions then 1 else 0) +
        (if (createDoc ed now p).metadata.has_annotations then 1 else 0) ∧
    1 ≤ ((generateTrainingChunks poems ed now).filter
        (fun c => c.source_document_id == (createDoc ed now p).id)).length ∧
    ((generateTrainingChunks poems ed now).filter
        (fun c => c.source_document_id == (createDoc ed now p).id)).length ≤ 3 := by
  have hl : lookupPoem poems (createDoc ed now p).source.poem_id = some p := by
    have hpid : (createDoc ed now p).source.poem_id = p.poem_id := rfl
    rw [hpid]
    exact lookupPoem_self poems p hn hp
  have hkey : ∀ q : Poem,
      ((createDoc ed now q).id = (createDoc ed now p).id) ↔ q.poem_id = p.poem_id := by
    intro q
    constructor
    · intro h; exact List.append_cancel_left h
    · intro h
      show lit "dufu_" ++ q.poem_id = lit "dufu_" ++ p.poem_id
      rw [h]
  have hcount : ((generateTrainingChunks poems ed now).filter
      (fun c => c.source_document_id == (createDoc ed now p).id)).length =
      (docChunks poems (createDoc ed now p) 0).1.length := by
    unfold generateTrainingChunks
    rw [genChunksAux_count_sdi, List.map_map]
    have hfun : poems.map ((fun d => if d.id = (createDoc ed now p).id then
          (docChunks poems d 0).1.length else 0) ∘ createDoc ed now) =
        poems.map (fun q => if q.poem_id = p.poem_id then
          (docChunks poems (createDoc ed now q) 0).1.length else 0) := by
      apply List.map_congr_left
      intro q hq
      simp only [Function.comp_apply]
      by_cases h : q.poem_id = p.poem_id
      · rw [if_pos ((hkey q).mpr h), if_pos h]
      · rw [if_neg (fun hc => h ((hkey q).mp hc)), if_neg h]
    rw [hfun]
    exact sum_if_unique poems (fun q => q.poem_id)
      (fun q => (docChunks poems (createDoc ed now q) 0).1.length) p hn hp
  have hfinal : ((generateTrainingChunks poems ed now).filter
      (fun c => c.source_document_id == (createDoc ed now p).id)).length =
      1 + (if p.allusions = [] then 0 else 1) +
        (if p.text_annotations = [] then 0 else 1) := by
    rw [hcount]
    exact docChunks_len_lookup poems _ 0 p hl
  refine ⟨?_, by rw [hfinal]; split_ifs <;> omega, by rw [hfinal]; split_ifs <;> omega⟩
  rw [hfinal]
  have ha : (createDoc ed now p).metadata.has_allusions =
      decide (0 < p.allusions.length) := rfl
  have hb : (createDoc ed now p).metadata.has_annotations =
      decide (0 < p.text_annotations.length) := rfl
  rw [ha, hb]
  by_cases h1 : p.allusions = [] <;> by_cases h2 : p.text_annotations = [] <;>
    simp [h1, h2, List.length_pos, List.isEmpty_iff]

/-- Witness for C2: a two-poem run; the poem with one allusion and no
annotations contributes exactly two chunks. -/
theorem c2_chunk_count_witness :
    (([pAllu, pPlain].map (fun q => q.poem_id)).Nodup ∧ pAllu ∈ [pAllu, pPlain]) ∧
    (((generateTrainingChunks [pAllu, pPlain] (lit "e") (lit "t")).filter
        (fun c => c.source_document_id == (createDoc (lit "e") (lit "t") pAllu).id)).length =
      1 + (if (createDoc (lit "e") (lit "t") pAllu).metadata.has_allusions then 1 else 0) +
        (if (createDoc (lit "e") (lit "t") pAllu).metadata.has_annotations then 1 else 0) ∧
      1 ≤ ((generateTrainingChunks [pAllu, pPlain] (lit "e") (lit "t")).filter
        (fun c => c.source_document_id == (createDoc (lit "e") (lit "t") pAllu).id)).length ∧
      ((generateTrainingChunks [pAllu, pPlain] (lit "e") (lit "t")).filter
        (fun c => c.source_document_id == (createDoc (lit "e") (lit "t") pAllu).id)).length ≤ 3) :=
  ⟨⟨by decide, by decide⟩,
    c2_chunk_count [pAllu, pPlain] (lit "e") (lit "t") pAllu (by decide) (by decide)⟩

/-!
## Claim C5 — id uniqueness (amended)
-/

/-- C5 (amended): in the Du Fu pipeline, document ids are pairwise distinct
whenever poem ids are, and the run's chunk ids are pairwise distinct
(consecutive counters under injective `{k:04d}` formatting); in the Queen
Elizabeth II pipeline, two documents receive the same id exactly when their
title slugs coincide — so distinct documents whose titles slugify equally
collide, as the counterexample shows. -/
theorem c5_amended (poems : List Poem) (ed now : Str)
    (hn : (poems.map (fun q => q.poem_id)).Nodup) :
    ((poems.map (createDoc ed now)).map (fun d => d.id)).Nodup ∧
    ((generateTrainingChunks poems ed now).map (fun c => c.chunk_id)).Nodup ∧
    ∀ d1 d2 : RawDocQE,
      generateDocId d1 = generateDocId d2 ↔ titleSlug d1.title = titleSlug d2.title := by
  refine ⟨?_, ?_, ?_⟩
  · rw [List.map_map]
    have hcomp : ((fun d : StructuredDocument => d.id) ∘ createDoc ed now) =
        (fun s => lit "dufu_" ++ s) ∘ (fun q : Poem => q.poem_id) := rfl
    rw [hcomp, ← List.map_map]
    exact hn.map (fun a b h => List.append_cancel_left h)
  · obtain ⟨N, hN⟩ := genChunksAux_ids poems (poems.map (createDoc ed now)) 1
    unfold generateTrainingChunks
    rw [hN]
    exact (List.nodup_range' 1 N).map chunkIdStr_injective
  · intro d1 d2
    constructor
    · intro h; exact List.append_cancel_left h
    · intro h
      show lit "qe2_" ++ titleSlug d1.title = lit "qe2_" ++ titleSlug d2.title
      rw [h]

/-- Witness for C5 (amended): the two-poem run has distinct document and
chunk ids. -/
theorem c5_amended_witness :
    (([pAllu, pPlain].map (fun q => q.poem_id)).Nodup) ∧
    ((([pAllu, pPlain].map (createDoc (lit "e") (lit "t"))).map (fun d => d.id)).Nodup ∧
      ((generateTrainingChunks [pAllu, pPlain] (lit "e") (lit "t")).map
        (fun c => c.chunk_id)).Nodup ∧
      ∀ d1 d2 : RawDocQE,
        generateDocId d1 = generateDocId d2 ↔ titleSlug d1.title = titleSlug d2.title) :=
  ⟨by decide, c5_amended [pAllu, pPlain] (lit "e") (lit "t") (by decide)⟩

/-!
## Claim C8 — the annotation-context chunk
-/

/-- Per-document annotation-context chunk count (filtering by the document's
own id). -/
theorem docChunks_count_ann (poems : List Poem) (d : StructuredDocument) (k : ℕ) :
    ((docChunks poems d k).1.filter (fun c => c.source_document_id == d.id &&
      c.chunk_type == lit "annotations_context")).length = annCountOf poems d := by
  have hpc : ((lit "poem_content" : Str) == lit "annotations_context") = false := by decide
  have hal : ((lit "allusions_context" : Str) == lit "annotations_context") = false := by decide
  have haa : ((lit "annotations_context" : Str) == lit "annotations_context") = true := by decide
  unfold docChunks annCountOf
  rcases lookupPoem poems d.source.poem_id with _ | p
  · simp [mkChunk1, hpc]
  · by_cases h1 : p.allusions = [] <;> by_cases h2 : p.text_annotations = [] <;>
      simp [h1, h2, mkChunk1, mkChunk2, mkChunk3, hpc, hal, haa]

/-- A document whose id differs from the filter target contributes no
annotation-context chunks to the filtered list. -/
theorem docChunks_filter_ann_none (poems : List Poem) (d : StructuredDocument)
    (k : ℕ) (tid : Str) (hid : d.id ≠ tid) :
    (docChunks poems d k).1.filter (fun c => c.source_document_id == tid &&
      c.chunk_type == lit "annotations_context") = [] := by
  rw [List.filter_eq_nil_iff]
  intro c hc hp
  rw [Bool.and_eq_true, beq_iff_eq] at hp
  exact hid ((docChunks_sdi poems d k c hc) ▸ hp.1)

/-- Counting annotation-context chunks distributes over the document loop. -/
theorem genChunksAux_count_ann (poems : List Poem) (tid : Str) :
    ∀ (ds : List StructuredDocument) (k : ℕ),
      ((genChunksAux poems ds k).filter (fun c => c.source_document_id == tid &&
        c.chunk_type == lit "annotations_context")).length =
      (ds.map (fun d => if d.id = tid then annCountOf poems d else 0)).sum := by
  intro ds
  induction ds with
  | nil => intro k; rfl
  | cons d ds ih =>
    intro k
    simp only [genChunksAux, List.filter_append, List.length_append, List.map_cons,
      List.sum_cons]
    rw [ih]
    by_cases hid : d.id = tid
    · have hval := docChunks_count_ann poems d k
      rw [hid] at hval
      rw [hval, if_pos hid]
    · rw [docChunks_filter_ann_none poems d k tid hid, if_neg hid]
      rfl

/-- Every chunk of the run comes from some document's `docChunks` call. -/
theorem genChunksAux_mem (poems : List Poem) :
    ∀ (ds : List StructuredDocument) (k : ℕ) (c : TChunk),
      c ∈ genChunksAux poems ds k →
        ∃ d ∈ ds, ∃ k2, c ∈ (docChunks poems d k2).1 := by
  intro ds
  induction ds with
  | nil =>
    intro k c hc
    simp [genChunksAux] at hc
  | cons d rest ih =>
    intro k c hc
    simp only [genChunksAux, List.mem_append] at hc
    rcases hc with hc | hc
    · exact ⟨d, by simp, k, hc⟩
    · obtain ⟨d2, hd2, k2, hck⟩ := ih _ c hc
      exact ⟨d2, by simp [hd2], k2, hck⟩

/-- Chunk type tags of the three chunk builders. -/
theorem mkChunk1_chunk_type (d : StructuredDocument) (k : ℕ) :
    (mkChunk1 d k).chunk_type = lit "poem_content" := rfl

/-- Chunk type tag of the allusion-context chunk. -/
theorem mkChunk2_chunk_type (d : StructuredDocument) (p : Poem) (k : ℕ) :
    (mkChunk2 d p k).chunk_type = lit "allusions_context" := rfl

/-- An annotation-context chunk of a document is the `chunk3` built from its
looked-up poem, which must have text annotations. -/
theorem docChunks_mem_ann (poems : List Poem) (d : StructuredDocument) (k : ℕ)
    (c : TChunk) (hc : c ∈ (docChunks poems d k).1)
    (hty : c.chunk_type = lit "annotations_context") :
    ∃ p k2, lookupPoem poems d.source.poem_id = some p ∧
      p.text_annotations ≠ [] ∧ c = mkChunk3 d p k2 := by
  unfold docChunks at hc
  rcases hl : lookupPoem poems d.source.poem_id with _ | p <;> rw [hl] at hc
  · rcases List.mem_singleton.mp hc with rfl
    rw [mkChunk1_chunk_type] at hty
    exact absurd hty (by decide)
  · by_cases h1 : p.allusions = [] <;> by_cases h2 : p.text_annotations = [] <;>
      simp only [h1, h2, if_true, if_false, List.mem_cons, List.mem_singleton,
        List.not_mem_nil, or_false] at hc
    · rcases hc with rfl
      rw [mkChunk1_chunk_type] at hty
      exact absurd hty (by decide)
    · rcases hc with rfl | rfl
      · rw [mkChunk1_chunk_type] at hty
        exact absurd hty (by decide)
      · exact ⟨p, k + 1, rfl, h2, rfl⟩
    · rcases hc with rfl | rfl
      · rw [mkChunk1_chunk_type] at hty
        exact absurd hty (by decide)
      · rw [mkChunk2_chunk_type] at hty
        exact absurd hty (by decide)
    · rcases hc with rfl | rfl | rfl
      · rw [mkChunk1_chunk_type] at hty
        exact absurd hty (by decide)
      · rw [mkChunk2_chunk_type] at hty
        exact absurd hty (by decide)
      · exact ⟨p, k + 2, rfl, h2, rfl⟩

/-- C8 counterexample: a document with six annotations yields an
annotation-context chunk containing all six annotation texts and no
`... more` note — not the first five plus a `...and 1 more` trailer that the
claim's example describes (the five-text truncation belongs to the
document's full-text assembly, where K = 5; the chunk builder truncates at
K = 10). -/
theorem c8_counterexample :
    (generateTrainingChunks [pSix] (lit "e") (lit "t")).length = 2 ∧
    ((generateTrainingChunks [pSix] (lit "e") (lit "t")).getD 1 defaultTChunk).chunk_type =
      lit "annotations_context" ∧
    ((generateTrainingChunks [pSix] (lit "e") (lit "t")).getD 1 defaultTChunk).content =
      lit "Poem: T\n\nScholarly Annotations:\n  a1\n  a2\n  a3\n  a4\n  a5\n  a6" ∧
    lit "Poem: T\n\nScholarly Annotations:\n  a1\n  a2\n  a3\n  a4\n  a5\n  a6" ≠
      lit "Poem: T\n\nScholarly Annotations:\n  a1\n  a2\n  a3\n  a4\n  a5\n\n... and 1 more annotations" := by
  refine ⟨by decide, by decide, by decide, by decide⟩

/-- C8 (amended): with unique poem ids, a document yields exactly one
annotation-context chunk when it has one or more annotations and none
otherwise; that chunk's content carries the document title as header and the
first ten annotation texts, all of them (and no trailing note) when at most
ten exist, and a trailing `... and N more annotations` note exactly when
more than ten exist. -/
theorem c8_annotation_chunk (poems : List Poem) (ed now : Str) (p : Poem)
    (hn : (poems.map (fun q => q.poem_id)).Nodup) (hp : p ∈ poems) :
    ((generateTrainingChunks poems ed now).filter
        (fun c => c.source_document_id == (createDoc ed now p).id &&
          c.chunk_type == lit "annotations_context")).length =
      (if p.text_annotations = [] then 0 else 1) ∧
    ∀ c ∈ generateTrainingChunks poems ed now,
      c.source_document_id = (createDoc ed now p).id →
      c.chunk_type = lit "annotations_context" →
        c.content = chunk3Text (createDoc ed now p) p ∧
        (p.text_annotations.length ≤ 10 →
          c.content = joinLines
            ([lit "Poem: " ++ (createDoc ed now p).title, [],
              lit "Scholarly Annotations:"] ++
              p.text_annotations.filterMap
                (fun a => if a.content = [] then none
                  else some (lit "  " ++ a.content)))) ∧
        (10 < p.text_annotations.length →
          c.content = joinLines
            ([lit "Poem: " ++ (createDoc ed now p).title, [],
              lit "Scholarly Annotations:"] ++
              (p.text_annotations.take 10).filterMap
                (fun a => if a.content = [] then none
                  else some (lit "  " ++ a.content)) ++
              [lit "\n... and " ++ natStr (p.text_annotations.length - 10) ++
                lit " more annotations"])) := by
  have hl : lookupPoem poems (createDoc ed now p).source.poem_id = some p := by
    have hpid : (createDoc ed now p).source.poem_id = p.poem_id := rfl
    rw [hpid]
    exact lookupPoem_self poems p hn hp
  constructor
  · unfold generateTrainingChunks
    rw [genChunksAux_count_ann, List.map_map]
    have hfun : poems.map ((fun d => if d.id = (createDoc ed now p).id then
          annCountOf poems d else 0) ∘ createDoc ed now) =
        poems.map (fun q => if q.poem_id = p.poem_id then
          annCountOf poems (createDoc ed now q) else 0) := by
      apply List.map_congr_left
      intro q hq
      simp only [Function.comp_apply]
      by_cases h : q.poem_id = p.poem_id
      · rw [if_pos (show (createDoc ed now q).id = (createDoc ed now p).id by
          show lit "dufu_" ++ q.poem_id = lit "dufu_" ++ p.poem_id
          rw [h]), if_pos h]
      · rw [if_neg (show ¬(createDoc ed now q).id = (createDoc ed now p).id from
          fun hc => h (List.append_cancel_left hc)), if_neg h]
    rw [hfun, sum_if_unique poems (fun q => q.poem_id)
      (fun q => annCountOf poems (createDoc ed now q)) p hn hp]
    unfold annCountOf
    rw [hl]
  · intro c hcmem hsdi hty
    obtain ⟨d2, hd2, k2, hck⟩ := genChunksAux_mem poems _ 1 c hcmem
    obtain ⟨q, hq, rfl⟩ := List.mem_map.mp hd2
    have hqid : q.poem_id = p.poem_id := by
      have hid2 : (createDoc ed now q).id = (createDoc ed now p).id := by
        rw [← docChunks_sdi poems _ k2 c hck, hsdi]
      exact List.append_cancel_left hid2
    have hqp : q = p := List.inj_on_of_nodup_map hn hq hp hqid
    subst hqp
    obtain ⟨p2, k3, hl2, hne2, rfl⟩ := docChunks_mem_ann poems _ k2 c hck hty
    have hlq : lookupPoem poems (createDoc ed now q).source.poem_id = some q := by
      have hqid2 : (createDoc ed now q).source.poem_id = q.poem_id := rfl
      rw [hqid2]
      exact lookupPoem_self poems q hn hq
    rw [hlq] at hl2
    injection hl2 with hp2
    subst hp2
    refine ⟨rfl, ?_, ?_⟩
    · intro hle
      show chunk3Text (createDoc ed now q) q = _
      unfold chunk3Text chunk3Parts
      rw [List.take_of_length_le hle, if_neg (by omega), List.append_nil]
    · intro hgt
      show chunk3Text (createDoc ed now q) q = _
      unfold chunk3Text chunk3Parts
      rw [if_pos hgt]

/-- Witness for C8 (amended): the six-annotation poem yields exactly one
annotation-context chunk. -/
theorem c8_annotation_chunk_witness :
    (([pSix].map (fun q => q.poem_id)).Nodup ∧ pSix ∈ [pSix]) ∧
    (((generateTrainingChunks [pSix] (lit "e") (lit "t")).filter
        (fun c => c.source_document_id == (createDoc (lit "e") (lit "t") pSix).id &&
          c.chunk_type == lit "annotations_context")).length =
      (if pSix.text_annotations = [] then 0 else 1) ∧
      ∀ c ∈ generateTrainingChunks [pSix] (lit "e") (lit "t"),
        c.source_document_id = (createDoc (lit "e") (lit "t") pSix).id →
        c.chunk_type = lit "annotations_context" →
          c.content = chunk3Text (createDoc (lit "e") (lit "t") pSix) pSix ∧
          (pSix.text_annotations.length ≤ 10 →
            c.content = joinLines
              ([lit "Poem: " ++ (createDoc (lit "e") (lit "t") pSix).title, [],
                lit "Scholarly Annotations:"] ++
                pSix.text_annotations.filterMap
                  (fun a => if a.content = [] then none
                    else some (lit "  " ++ a.content)))) ∧
          (10 < pSix.text_annotations.length →
            c.content = joinLines
              ([lit "Poem: " ++ (createDoc (lit "e") (lit "t") pSix).title, [],
                lit "Scholarly Annotations:"] ++
                (pSix.text_annotations.take 10).filterMap
                  (fun a => if a.content = [] then none
                    else some (lit "  " ++ a.content)) ++
                [lit "\n... and " ++ natStr (pSix.text_annotations.length - 10) ++
                  lit " more annotations"]))) :=
  ⟨⟨by decide, by decide⟩,
    c8_annotation_chunk [pSix] (lit "e") (lit "t") pSix (by decide) (by decide)⟩
